import Mathlib

/-
Verification of the EVH (Enhanced Virtual Hosting) graph builder and the
CRD overlay of the ingress controller, as implemented in
internal/nodes/avi_model_evh_nodes.go and internal/nodes/crd_translator.go.

The Go code is shallowly embedded: structs become Lean structures, pointer
mutation becomes functional update, slices become lists, and machine
integers (uint32 checksums) become Nat with explicit reduction mod 2^32.
Library helpers of the repository that live outside the two source files
(pkg/utils hashing and stringification, internal/lib name generators and
configuration accessors) are modelled from the specification and are marked
as such in their doc comments.
-/

namespace AKO

/-- UTF-8 byte sequence of a character (code point encoded per RFC 3629). -/
def utf8BytesOfChar (c : Char) : List Nat :=
  let n := c.toNat
  if n < 0x80 then [n]
  else if n < 0x800 then [0xC0 + n / 64, 0x80 + n % 64]
  else if n < 0x10000 then [0xE0 + n / 4096, 0x80 + (n / 64) % 64, 0x80 + n % 64]
  else [0xF0 + n / 262144, 0x80 + (n / 4096) % 64, 0x80 + (n / 64) % 64, 0x80 + n % 64]

/-- UTF-8 byte sequence of a string. -/
def utf8Bytes (s : String) : List Nat :=
  s.data.flatMap utf8BytesOfChar

/-- Modelled from the spec: `utils.Hash` (pkg/utils, outside src/) is "a fast
non-cryptographic hash over the UTF-8 bytes"; we use 32-bit FNV-1a, the hash
the repository uses, with arithmetic carried out in Nat mod 2^32. -/
def Hash (s : String) : Nat :=
  (utf8Bytes s).foldl (fun h b => ((h ^^^ b) * 16777619) % 4294967296) 2166136261

/-- Modelled from the spec: `utils.Stringify` (outside src/) serializes a value
to a string; set fields "contribute the hash of their stringified value".
Stringification of a quoted string. -/
def stringifyStr (s : String) : String := "\"" ++ s ++ "\""

/-- Modelled from the spec: stringification of a list of strings. -/
def stringifyStrList (l : List String) : String :=
  "[" ++ String.intercalate "," (l.map stringifyStr) ++ "]"

/-- Modelled from the spec: stringification of a boolean. -/
def stringifyBool (b : Bool) : String := if b then "true" else "false"

/-! Configuration accessors and name constants of internal/lib and pkg/utils
(outside src/), modelled from the spec as runtime constants. -/

/-- Modelled from the spec: `lib.GetTenant`, default "admin". -/
def GetTenant : String := "admin"

/-- Modelled from the spec: `lib.GetNamePrefix`, "applied to every generated name". -/
def GetNamePrefix : String := "cluster--"

/-- Modelled from the spec: `lib.ShardVSPrefix`, the shared-VS name stem. -/
def ShardVSPrefix : String := "Shared-L7"

/-- Modelled from the spec: `lib.GetVrf`, the configured VRF context. -/
def GetVrf : String := "global"

/-- Modelled from the spec: `lib.DEFAULT_SE_GROUP`. -/
def DEFAULT_SE_GROUP : String := "Default-Group"

/-- Modelled from the spec: `lib.GetSEGName`, the configured SE group. -/
def GetSEGName : String := "Default-Group"

/-- Modelled from the spec: `utils.DEFAULT_L7_SECURE_APP_PROFILE`. -/
def DEFAULT_L7_SECURE_APP_PROFILE : String := "System-Secure-HTTP"

/-- Modelled from the spec: `utils.DEFAULT_TCP_NW_PROFILE`. -/
def DEFAULT_TCP_NW_PROFILE : String := "System-TCP-Proxy"

/-- Modelled from the spec: `utils.HTTP`, the listener protocol tag. -/
def ProtocolHTTP : String := "HTTP"

/-- Modelled from the spec: `lib.STATUS_REDIRECT`, the redirect status code tag. -/
def STATUS_REDIRECT : String := "HTTP_REDIRECT_STATUS_CODE_302"

/-- Modelled from the spec: `lib.DummySecret`, the marker secret-name stem for
hosts whose certificate comes from a host rule. -/
def DummySecret : String := "@avisslkeycertref-dummysecret"

/-- Modelled from the spec: `lib.RouteSecretsPrefix`, the marker stem of
Route-embedded (inline) key/cert "secrets". -/
def RouteSecretsPrefix : String := "ako-route-tls-"

/-- Modelled from the spec: `lib.CertTypeVS`. -/
def CertTypeVS : String := "SSL_CERTIFICATE_TYPE_VIRTUALSERVICE"

/-- Modelled from the spec: `lib.CertTypeCA`. -/
def CertTypeCA : String := "SSL_CERTIFICATE_TYPE_CA"

/-- Modelled from the spec: `lib.StatusRejected`, the CRD status string. -/
def StatusRejected : String := "Rejected"

/-- Modelled from the spec: `lib.LB_ALGORITHM_CONSISTENT_HASH`. -/
def LB_ALGORITHM_CONSISTENT_HASH : String := "LB_ALGORITHM_CONSISTENT_HASH"

/-- Modelled from the spec: `lib.LB_ALGORITHM_CONSISTENT_HASH_CUSTOM_HEADER`. -/
def LB_ALGORITHM_CONSISTENT_HASH_CUSTOM_HEADER : String :=
  "LB_ALGORITHM_CONSISTENT_HASH_CUSTOM_HEADER"

/-- Modelled from the spec: `lib.TypeTLSReencrypt`, the HTTPRule TLS type that
is allowed through the overlay. -/
def TypeTLSReencrypt : String := "reencrypt"

/-- Modelled from the spec: `lib.DefaultPoolSSLProfile`. -/
def DefaultPoolSSLProfile : String := "System-Standard"

/-- Modelled from the spec: `lib.GetClusterLabelChecksum`, the cluster-label
checksum folded into every VS checksum so relabeling triggers resync; a
runtime constant. -/
def GetClusterLabelChecksum : Nat := Hash "clusterName:cluster"

/-- Replace every `/` by `_` (the `strings.ReplaceAll(path, "/", "_")` of the
source), written over the character list so that it evaluates by reduction. -/
def replaceSlashUnderscore (s : String) : String :=
  String.mk (s.data.map (fun c => if c == '/' then '_' else c))

/-- String prefix test (`strings.HasPrefix`), written over the character
lists so that it evaluates by reduction. -/
def strHasPre (pre s : String) : Bool := pre.data.isPrefixOf s.data

/-- First `/`-separated component of a string (`strings.Split(s, "/")[0]`). -/
def firstSlashComponent (s : String) : String :=
  String.mk (s.data.takeWhile (fun c => !(c == '/')))

/-! Name generators of internal/lib (outside src/), modelled from the spec.
The spec fixes the shared/EVH pool-name shape through the HTTP-rule regex
"^<prefix><host><pathPrefix>.*-<ns>-<ingress>". -/

/-- Modelled from the spec: `lib.GetEvhNodeName`, the child-VS name for
(ingress, namespace, host). -/
def GetEvhNodeName (ingName ns host : String) : String :=
  GetNamePrefix ++ ingName ++ "-" ++ ns ++ "-" ++ host

/-- Modelled from the spec: `lib.GetEvhVsPoolNPgName`; the shared/EVH pool and
pool-group name for (ingress, namespace, host, path), shaped
`<prefix><host><path with / replaced by _>-<ns>-<ingress>` so that it matches
the spec's shared/EVH HTTP-rule regex. -/
def GetEvhVsPoolNPgName (ingName ns host path : String) : String :=
  GetNamePrefix ++ host ++ replaceSlashUnderscore path ++ "-" ++ ns ++ "-" ++ ingName

/-- Modelled from the spec: `lib.GetSniHttpPolName`, the per-path HTTP policy
name. -/
def GetSniHttpPolName (ingName ns host path : String) : String :=
  GetNamePrefix ++ ns ++ "-" ++ host ++ replaceSlashUnderscore path ++ "-" ++ ingName

/-- Modelled from the spec: `lib.GetL7HttpRedirPolicy`, the name of the single
insecure-to-secure redirect policy of a shared VS. -/
def GetL7HttpRedirPolicy (vsName : String) : String :=
  vsName ++ "-http-redirect-policy"

/-- Modelled from the spec: `lib.GetVsVipName`. -/
def GetVsVipName (vsName : String) : String := vsName ++ "-vsvip"

/-- Modelled from the spec: `lib.GetTLSKeyCertNodeName` with an explicit host
argument (the EVH builder always passes one). -/
def GetTLSKeyCertNodeName (ns secretName host : String) : String :=
  GetNamePrefix ++ ns ++ "-" ++ secretName ++ "-" ++ host

/-- Modelled from the spec: `lib.GetCACertNodeName`, the CA-cert node name
derived from its key/cert node name. -/
def GetCACertNodeName (keycertname : String) : String := keycertname ++ "-cacert"

/-- Modelled from the spec: `lib.GetModelName`, the per-shard model key. -/
def GetModelName (tenant vsName : String) : String := tenant ++ "/" ++ vsName

/-- Modelled from the spec: `utils.Bkt` maps a key to a bucket as
`H(key) mod size` where `H` is the fast non-cryptographic hash. -/
def Bkt (key : String) (size : Nat) : Nat := Hash key % size

/-- Translation of `utils.HasElem` for string slices: membership test. -/
def HasElem (l : List String) (x : String) : Bool := l.contains x

/-- Translation of `utils.Remove` for string slices: removes the first
occurrence of the item, if any. -/
def RemoveElem (l : List String) (x : String) : List String := l.erase x

/-! Data model: the node structures of the object graph. Structures defined in
other packages of the repository (outside src/) carry the fields this source
reads or writes. -/

/-- CRD bookkeeping on service metadata (internal/cache, outside src/):
type, value (namespace/name), and ACTIVE or INACTIVE state. -/
structure CRDMetadata where
  CrdType : String
  Value : String
  Status : String
  deriving Repr, DecidableEq

/-- Service metadata attached to VS and pool nodes (internal/cache, outside
src/), as read and written by the two source files. -/
structure ServiceMetadataObj where
  IngressName : String
  NamespaceIngressName : List String
  Namespace : String
  HostNames : List String
  CRDStatus : CRDMetadata
  deriving Repr, DecidableEq

/-- Default (zero-valued) service metadata, matching Go's zero value. -/
def ServiceMetadataObj.empty : ServiceMetadataObj :=
  ⟨"", [], "", [], ⟨"", "", ""⟩⟩

/-- Listener port/protocol entry of a VS (struct defined outside src/; the
fields are the ones this source sets and the checksum sort key `Name`). -/
structure AviPortHostProtocol where
  Name : String
  Port : Nat
  Protocol : String
  EnableSSL : Bool
  deriving Repr, DecidableEq

/-- PKI profile sub-node built by the HTTP-rule overlay for re-encrypt
destination CAs. -/
structure AviPkiProfileNode where
  Name : String
  Tenant : String
  CACert : String
  deriving Repr, DecidableEq

/-- Pool node fields read or written by the two source files. -/
structure AviPoolNode where
  Name : String
  PortName : String
  Tenant : String
  VrfContext : String
  IngressName : String
  ServiceMetadata : ServiceMetadataObj
  Servers : List String
  SniEnabled : Bool
  SslProfileRef : String
  PkiProfile : Option AviPkiProfileNode
  HealthMonitors : List String
  LbAlgorithm : String
  LbAlgorithmHash : String
  LbAlgoHostHeader : String
  deriving Repr, DecidableEq

/-- Pool-group member: a pool ref string plus a weight ratio. -/
structure PoolGroupMember where
  PoolRef : String
  Ratio : Nat
  deriving Repr, DecidableEq

/-- Pool-group node: a named, ordered member list. -/
structure AviPoolGroupNode where
  Name : String
  Tenant : String
  Members : List PoolGroupMember
  deriving Repr, DecidableEq

/-- TLS key-and-certificate node (VS leaf or CA). -/
structure AviTLSKeyCertNode where
  Name : String
  Tenant : String
  CertType : String
  Cert : String
  Key : String
  CACert : String
  deriving Repr, DecidableEq

/-- Redirect-ports entry of an HTTP policy set: the hosts it redirects and the
port/status data. -/
structure AviRedirectPort where
  Hosts : List String
  RedirectPort : Nat
  StatusCode : String
  VsPort : Nat
  deriving Repr, DecidableEq

/-- Host/path/pool-group match entry of an HTTP policy set. -/
structure AviHostPathPortPoolPG where
  Host : String
  Path : List String
  MatchCriteria : String
  PoolGroup : String
  deriving Repr, DecidableEq

/-- HTTP policy set node; `CloudConfigCksum` is the cached checksum field the
Go struct carries (zero until `CalculateCheckSum` runs). -/
structure AviHttpPolicySetNode where
  Name : String
  Tenant : String
  HppMap : List AviHostPathPortPoolPG
  RedirectPorts : List AviRedirectPort
  CloudConfigCksum : Nat
  deriving Repr, DecidableEq

/-- VSVIP node owned by a shared parent VS. -/
structure AviVSVIPNode where
  Name : String
  Tenant : String
  VrfContext : String
  FQDNs : List String
  EastWest : Bool
  NetworkName : Option String
  deriving Repr, DecidableEq

/-- HTTP data-script node (only its name is relevant to this source). -/
structure AviHTTPDataScriptNode where
  Name : String
  deriving Repr, DecidableEq

/-- Record of the non-recursive fields of an `AviEvhVsNode`, exactly the
fields of the Go struct this source reads or writes. -/
structure EvhData (C : Type) where
  EVHParent : Bool
  VHParentName : String
  VHDomainNames : List String
  EvhNodes : List C
  EvhHostName : String
  Name : String
  Tenant : String
  ServiceEngineGroup : String
  ApplicationProfile : String
  NetworkProfile : String
  EnableRhi : Option Bool
  Enabled : Option Bool
  PortProto : List AviPortHostProtocol
  DefaultPool : String
  DefaultPoolGroup : String
  PoolGroupRefs : List AviPoolGroupNode
  PoolRefs : List AviPoolNode
  HTTPDSrefs : List AviHTTPDataScriptNode
  SharedVS : Bool
  CACertRefs : List AviTLSKeyCertNode
  SSLKeyCertRefs : List AviTLSKeyCertNode
  HttpPolicyRefs : List AviHttpPolicySetNode
  VSVIPRefs : List AviVSVIPNode
  TLSType : String
  ServiceMetadata : ServiceMetadataObj
  VrfContext : String
  WafPolicyRef : String
  AppProfileRef : String
  AnalyticsProfileRef : String
  ErrorPageProfileRef : String
  HttpPolicySetRefs : List String
  VsDatascriptRefs : List String
  SSLProfileRef : String
  SSLKeyCertAviRef : String

/-- EVH virtual-service node; recursive because a parent owns child EVH
nodes of the same type. -/
inductive AviEvhVsNode : Type where
  | mk : EvhData AviEvhVsNode → AviEvhVsNode

/-- Field record of an EVH node. -/
def AviEvhVsNode.data : AviEvhVsNode → EvhData AviEvhVsNode
  | .mk d => d

/-- Functional update of an EVH node's field record. -/
def AviEvhVsNode.upd (n : AviEvhVsNode) (f : EvhData AviEvhVsNode → EvhData AviEvhVsNode) :
    AviEvhVsNode :=
  .mk (f n.data)

/-! Checksums. `AviEvhVsNode.CalculateCheckSum` is translated from the source;
the leaf-node checksums it consumes are defined in other files of the
repository (outside src/) and are modelled from the spec: each is "a hash of
its semantic fields". -/

/-- Modelled from the spec: stringification of a port/protocol listener entry. -/
def stringifyPortProto (p : AviPortHostProtocol) : String :=
  "(" ++ stringifyStr p.Name ++ ":" ++ toString p.Port ++ ":" ++
    stringifyStr p.Protocol ++ ":" ++ stringifyBool p.EnableSSL ++ ")"

/-- Modelled from the spec: stringification of the listener list. -/
def stringifyPortProtoList (l : List AviPortHostProtocol) : String :=
  "[" ++ String.intercalate "," (l.map stringifyPortProto) ++ "]"

/-- Modelled from the spec: checksum of an HTTP data-script node. -/
def AviHTTPDataScriptNode.GetCheckSum (d : AviHTTPDataScriptNode) : Nat :=
  Hash (stringifyStr d.Name)

/-- Modelled from the spec: stringification of a pool-group member. -/
def stringifyMember (m : PoolGroupMember) : String :=
  "(" ++ stringifyStr m.PoolRef ++ ":" ++ toString m.Ratio ++ ")"

/-- Modelled from the spec: checksum of a pool-group node, a hash of its name
and ordered member list. -/
def AviPoolGroupNode.GetCheckSum (pg : AviPoolGroupNode) : Nat :=
  Hash (stringifyStr pg.Name ++ "[" ++
    String.intercalate "," (pg.Members.map stringifyMember) ++ "]")

/-- Modelled from the spec: checksum of a pool node, a hash of its semantic
fields (name, port, servers, TLS and LB settings, health monitors). -/
def AviPoolNode.GetCheckSum (p : AviPoolNode) : Nat :=
  Hash (stringifyStr p.Name ++ stringifyStr p.PortName ++
    stringifyStrList p.Servers ++ stringifyBool p.SniEnabled ++
    stringifyStr p.SslProfileRef ++
    (match p.PkiProfile with
     | some pki => stringifyStr pki.Name ++ stringifyStr pki.CACert
     | none => "") ++
    stringifyStrList p.HealthMonitors ++ stringifyStr p.LbAlgorithm ++
    stringifyStr p.LbAlgorithmHash ++ stringifyStr p.LbAlgoHostHeader)

/-- Modelled from the spec: checksum of a TLS key/cert node, a hash over the
certificate, key, type and CA back-reference. -/
def AviTLSKeyCertNode.GetCheckSum (t : AviTLSKeyCertNode) : Nat :=
  Hash (stringifyStr t.Name ++ stringifyStr t.CertType ++ stringifyStr t.Cert ++
    stringifyStr t.Key ++ stringifyStr t.CACert)

/-- Modelled from the spec: stringification of a redirect-ports entry. -/
def stringifyRedirectPort (r : AviRedirectPort) : String :=
  "(" ++ stringifyStrList r.Hosts ++ ":" ++ toString r.RedirectPort ++ ":" ++
    stringifyStr r.StatusCode ++ ":" ++ toString r.VsPort ++ ")"

/-- Modelled from the spec: stringification of a host/path/pool-group match
entry. -/
def stringifyHppMapEntry (h : AviHostPathPortPoolPG) : String :=
  "(" ++ stringifyStr h.Host ++ ":" ++ stringifyStrList h.Path ++ ":" ++
    stringifyStr h.MatchCriteria ++ ":" ++ stringifyStr h.PoolGroup ++ ")"

/-- Modelled from the spec: the checksum an HTTP policy set node computes over
its semantic content (match table and redirect table). -/
def AviHttpPolicySetNode.contentCheckSum (p : AviHttpPolicySetNode) : Nat :=
  Hash ("[" ++ String.intercalate "," (p.HppMap.map stringifyHppMapEntry) ++ "]") +
    Hash ("[" ++ String.intercalate "," (p.RedirectPorts.map stringifyRedirectPort) ++ "]")

/-- Recompute-on-demand checksum of an HTTP policy set node (`GetCheckSum`
recalculates before returning). -/
def AviHttpPolicySetNode.GetCheckSum (p : AviHttpPolicySetNode) : Nat :=
  p.contentCheckSum

/-- Translation of `CalculateCheckSum` for an HTTP policy set node: stores the
computed checksum on the node. -/
def AviHttpPolicySetNode.CalculateCheckSum (p : AviHttpPolicySetNode) : AviHttpPolicySetNode :=
  { p with CloudConfigCksum := p.contentCheckSum }

/-- Modelled from the spec: checksum of a VSVIP node, a hash over its name and
FQDN list. -/
def AviVSVIPNode.GetCheckSum (v : AviVSVIPNode) : Nat :=
  Hash (stringifyStr v.Name ++ stringifyStrList v.FQDNs ++ stringifyBool v.EastWest)

/-- Translation of the in-place `sort.Slice(portproto, less by Name)` of
`CalculateCheckSum`: a deterministic sort of the listener list by `Name`. -/
def sortPortProto (l : List AviPortHostProtocol) : List AviPortHostProtocol :=
  List.insertionSort (fun a b => a.Name ≤ b.Name) l

/-- Accumulated checksum of the data-script refs (`dsChecksum`). -/
def cksHTTPDSList (l : List AviHTTPDataScriptNode) : Nat :=
  (l.map AviHTTPDataScriptNode.GetCheckSum).sum

/-- Accumulated checksum of the HTTP policy refs (`httppolChecksum`). -/
def cksHttpPolList (l : List AviHttpPolicySetNode) : Nat :=
  (l.map AviHttpPolicySetNode.GetCheckSum).sum

/-- Accumulated checksum of a TLS key/cert ref list (`sslkeyChecksum` parts). -/
def cksTLSList (l : List AviTLSKeyCertNode) : Nat :=
  (l.map AviTLSKeyCertNode.GetCheckSum).sum

/-- Accumulated checksum of the VSVIP refs (`vsvipChecksum`). -/
def cksVSVIPList (l : List AviVSVIPNode) : Nat :=
  (l.map AviVSVIPNode.GetCheckSum).sum

mutual

/-- Translation of `AviEvhVsNode.CalculateCheckSum` (avi_model_evh_nodes.go):
the checksum accumulates the child-node checksums, the hashes of the profile
and listener fields, the stringified ref collections (`HttpPolicySetRefs` and
`VsDatascriptRefs` are hashed in their stored order, per the source comment
"keep the order of these policies"), the host name, the optional tri-state
fields and the cluster-label checksum. `GetCheckSum` recalculates and
returns it. -/
def AviEvhVsNode.GetCheckSum : AviEvhVsNode → Nat
  | .mk d =>
    let portproto := sortPortProto d.PortProto
    let dsChecksum := cksHTTPDSList d.HTTPDSrefs
    let httppolChecksum := cksHttpPolList d.HttpPolicyRefs
    let evhChecksum := cksEvhList d.EvhNodes
    let sslkeyChecksum := cksTLSList d.CACertRefs + cksTLSList d.SSLKeyCertRefs
    let vsvipChecksum := cksVSVIPList d.VSVIPRefs
    let policies := d.HttpPolicySetRefs
    let scripts := d.VsDatascriptRefs
    let vsRefs0 := d.WafPolicyRef ++ d.AppProfileRef ++ stringifyStrList policies ++
      d.AnalyticsProfileRef ++ d.ErrorPageProfileRef ++ d.SSLProfileRef
    let vsRefs := if scripts.length > 0 then vsRefs0 ++ stringifyStrList scripts else vsRefs0
    let checksum := dsChecksum + httppolChecksum + evhChecksum +
      Hash d.ApplicationProfile + Hash d.NetworkProfile +
      Hash (stringifyPortProtoList portproto) + Hash d.ServiceEngineGroup +
      sslkeyChecksum + vsvipChecksum + Hash vsRefs + Hash d.EvhHostName
    let checksum := checksum +
      (match d.Enabled with
       | some b => Hash (stringifyBool b)
       | none => 0)
    let checksum := checksum + GetClusterLabelChecksum
    let checksum := checksum +
      (match d.EnableRhi with
       | some b => Hash (stringifyBool b)
       | none => 0)
    checksum

/-- Accumulated checksum of a list of child EVH nodes (`evhChecksum`). -/
def cksEvhList : List AviEvhVsNode → Nat
  | [] => 0
  | c :: cs => c.GetCheckSum + cksEvhList cs

end

/-! Replace and delete helpers on the child collections of an EVH node. Each
Go loop finds the first element with the new node's name, removes it and
appends the new node at the tail; when nothing matches it appends. -/

/-- Loop body of `ReplaceEvhPoolInEVHNode`: first name match is removed and the
new pool appended; otherwise append. -/
def replacePoolList : List AviPoolNode → AviPoolNode → List AviPoolNode
  | [], newNode => [newNode]
  | p :: rest, newNode =>
    if p.Name == newNode.Name then rest ++ [newNode]
    else p :: replacePoolList rest newNode

/-- Translation of `ReplaceEvhPoolInEVHNode`. -/
def ReplaceEvhPoolInEVHNode (o : AviEvhVsNode) (newPoolNode : AviPoolNode) : AviEvhVsNode :=
  o.upd fun d => { d with PoolRefs := replacePoolList d.PoolRefs newPoolNode }

/-- Loop body of `ReplaceEvhPGInEVHNode`. -/
def replacePGList : List AviPoolGroupNode → AviPoolGroupNode → List AviPoolGroupNode
  | [], newNode => [newNode]
  | p :: rest, newNode =>
    if p.Name == newNode.Name then rest ++ [newNode]
    else p :: replacePGList rest newNode

/-- Translation of `ReplaceEvhPGInEVHNode`. -/
def ReplaceEvhPGInEVHNode (o : AviEvhVsNode) (newPGNode : AviPoolGroupNode) : AviEvhVsNode :=
  o.upd fun d => { d with PoolGroupRefs := replacePGList d.PoolGroupRefs newPGNode }

/-- Loop body of `ReplaceEvhSSLRefInEVHNode` and `ReplaceCACertRefInEVHNode`. -/
def replaceTLSList : List AviTLSKeyCertNode → AviTLSKeyCertNode → List AviTLSKeyCertNode
  | [], newNode => [newNode]
  | p :: rest, newNode =>
    if p.Name == newNode.Name then rest ++ [newNode]
    else p :: replaceTLSList rest newNode

/-- Translation of `ReplaceEvhSSLRefInEVHNode`. -/
def ReplaceEvhSSLRefInEVHNode (o : AviEvhVsNode) (newSslNode : AviTLSKeyCertNode) : AviEvhVsNode :=
  o.upd fun d => { d with SSLKeyCertRefs := replaceTLSList d.SSLKeyCertRefs newSslNode }

/-- Translation of `ReplaceCACertRefInEVHNode`. -/
def ReplaceCACertRefInEVHNode (o : AviEvhVsNode) (cacertNode : AviTLSKeyCertNode) : AviEvhVsNode :=
  o.upd fun d => { d with CACertRefs := replaceTLSList d.CACertRefs cacertNode }

/-- Loop body of `ReplaceHTTPRefInNodeForEvh`. -/
def replaceHttpPolList : List AviHttpPolicySetNode → AviHttpPolicySetNode → List AviHttpPolicySetNode
  | [], newNode => [newNode]
  | p :: rest, newNode =>
    if p.Name == newNode.Name then rest ++ [newNode]
    else p :: replaceHttpPolList rest newNode

/-- Translation of `ReplaceHTTPRefInNodeForEvh`. -/
def ReplaceHTTPRefInNodeForEvh (o : AviEvhVsNode) (newHttpNode : AviHttpPolicySetNode) : AviEvhVsNode :=
  o.upd fun d => { d with HttpPolicyRefs := replaceHttpPolList d.HttpPolicyRefs newHttpNode }

/-- Loop body of `DeleteSSLRefInEVHNode` and `DeleteCACertRefInEVHNode`: the
first name match is removed; nothing is appended. -/
def deleteTLSList : List AviTLSKeyCertNode → String → List AviTLSKeyCertNode
  | [], _ => []
  | p :: rest, nm =>
    if p.Name == nm then rest
    else p :: deleteTLSList rest nm

/-- Translation of `DeleteSSLRefInEVHNode`. -/
def DeleteSSLRefInEVHNode (o : AviEvhVsNode) (sslKeyCertName : String) : AviEvhVsNode :=
  o.upd fun d => { d with SSLKeyCertRefs := deleteTLSList d.SSLKeyCertRefs sslKeyCertName }

/-- Translation of `DeleteCACertRefInEVHNode`. -/
def DeleteCACertRefInEVHNode (o : AviEvhVsNode) (cacertNodeName : String) : AviEvhVsNode :=
  o.upd fun d => { d with CACertRefs := deleteTLSList d.CACertRefs cacertNodeName }

/-- Translation of `GetEvhNodeForName`: first child with the given name. -/
def GetEvhNodeForName (parent : AviEvhVsNode) (nm : String) : Option AviEvhVsNode :=
  parent.data.EvhNodes.find? (fun c => c.data.Name == nm)

/-- Translation of `CheckPGNameNChecksum`: `false` exactly when the first
pool group with the given name has the given checksum. -/
def CheckPGNameNChecksum (o : AviEvhVsNode) (pgNodeName : String) (checksum : Nat) : Bool :=
  match o.data.PoolGroupRefs.find? (fun pg => pg.Name == pgNodeName) with
  | some pg => !(pg.GetCheckSum == checksum)
  | none => true

/-- Translation of `CheckPoolNChecksum`: `false` exactly when some pool with
the given name carries the given checksum (the loop keeps scanning on a name
match with a differing checksum). -/
def CheckPoolNChecksum (o : AviEvhVsNode) (poolNodeName : String) (checksum : Nat) : Bool :=
  !(o.data.PoolRefs.any (fun p => p.Name == poolNodeName && p.GetCheckSum == checksum))

/-- Translation of `CheckHttpPolNameNChecksumForEvh`: `false` exactly when some
policy with the given name carries the given checksum. -/
def CheckHttpPolNameNChecksumForEvh (o : AviEvhVsNode) (httpNodeName : String) (checksum : Nat) : Bool :=
  !(o.data.HttpPolicyRefs.any (fun h => h.Name == httpNodeName && h.GetCheckSum == checksum))

/-- Translation of `CheckSSLCertNodeNameNChecksum`: `false` exactly when some
SSL ref with the given name carries the given checksum. -/
def CheckSSLCertNodeNameNChecksum (o : AviEvhVsNode) (sslNodeName : String) (checksum : Nat) : Bool :=
  !(o.data.SSLKeyCertRefs.any (fun s => s.Name == sslNodeName && s.GetCheckSum == checksum))

/-- Translation of `CheckCACertNodeNameNChecksum`: `false` exactly when some
CA ref with the given name carries the given checksum. -/
def CheckCACertNodeNameNChecksum (o : AviEvhVsNode) (cacertNodeName : String) (checksum : Nat) : Bool :=
  !(o.data.CACertRefs.any (fun s => s.Name == cacertNodeName && s.GetCheckSum == checksum))

/-- Loop body of `FindAndReplaceEvhInModel`: on the first name match the child
is moved to the tail only when the checksums differ, and the function reports
the match; with no match the list is returned unchanged (the caller appends). -/
def findAndReplaceEvhList : List AviEvhVsNode → AviEvhVsNode → Bool × List AviEvhVsNode
  | [], _ => (false, [])
  | m :: rest, cur =>
    if m.data.Name == cur.data.Name then
      if m.GetCheckSum == cur.GetCheckSum then (true, m :: rest)
      else (true, rest ++ [cur])
    else
      let r := findAndReplaceEvhList rest cur
      (r.1, m :: r.2)

/-- Translation of `FindAndReplaceEvhInModel` acting on the parent
(`modelEvhNodes[0]`). -/
def FindAndReplaceEvhInModel (currentEvhNode : AviEvhVsNode) (parent : AviEvhVsNode) :
    Bool × AviEvhVsNode :=
  let r := findAndReplaceEvhList parent.data.EvhNodes currentEvhNode
  (r.1, parent.upd fun d => { d with EvhNodes := r.2 })

/-- Loop body of `RemoveEvhInModel`: the first child with the given name is
removed. -/
def removeEvhList : List AviEvhVsNode → String → List AviEvhVsNode
  | [], _ => []
  | m :: rest, nm =>
    if m.data.Name == nm then rest
    else m :: removeEvhList rest nm

/-- Translation of `RemoveEvhInModel` acting on the parent. -/
def RemoveEvhInModel (currentEvhNodeName : String) (parent : AviEvhVsNode) : AviEvhVsNode :=
  parent.upd fun d => { d with EvhNodes := removeEvhList d.EvhNodes currentEvhNodeName }

/-! Redirect-policy operations of the parent (shared) VS. -/

/-- Hosts array of a redirect policy; the Go code reads `RedirectPorts[0]`, and
redirect policies are always constructed with exactly one entry. -/
def policyRedirectHosts (p : AviHttpPolicySetNode) : List String :=
  match p.RedirectPorts with
  | [] => []
  | r :: _ => r.Hosts

/-- In-place update of the hosts array of `RedirectPorts[0]`. -/
def policyWithRedirectHosts (p : AviHttpPolicySetNode) (hosts : List String) :
    AviHttpPolicySetNode :=
  { p with RedirectPorts :=
      match p.RedirectPorts with
      | [] => []
      | r :: rest => { r with Hosts := hosts } :: rest }

/-- Loop body of `FindAndReplaceRedirectHTTPPolicyInModelforEvh`: the first
policy whose name matches and whose stored checksum differs from the fresh
policy's (zero) checksum gets the hostname appended to its hosts array when
absent; the function reports whether such a policy was found. -/
def findAndReplaceRedirectList (nm : String) (ck : Nat) (hostname : String) :
    List AviHttpPolicySetNode → Bool × List AviHttpPolicySetNode
  | [] => (false, [])
  | p :: rest =>
    if p.Name == nm && !(p.CloudConfigCksum == ck) then
      if HasElem (policyRedirectHosts p) hostname then (true, p :: rest)
      else (true, policyWithRedirectHosts p (policyRedirectHosts p ++ [hostname]) :: rest)
    else
      let r := findAndReplaceRedirectList nm ck hostname rest
      (r.1, p :: r.2)

/-- Translation of `FindAndReplaceRedirectHTTPPolicyInModelforEvh`. -/
def FindAndReplaceRedirectHTTPPolicyInModelforEvh (vsNode : AviEvhVsNode)
    (httpPolicy : AviHttpPolicySetNode) (hostname : String) : Bool × AviEvhVsNode :=
  let r := findAndReplaceRedirectList httpPolicy.Name httpPolicy.CloudConfigCksum hostname
    vsNode.data.HttpPolicyRefs
  (r.1, vsNode.upd fun d => { d with HttpPolicyRefs := r.2 })

/-- Translation of `BuildPolicyRedirectForVSForEvh`: build a fresh redirect
policy for the host (its stored checksum still zero), try to fold the host
into an existing redirect policy, and otherwise compute the checksum and
append the fresh policy. -/
def BuildPolicyRedirectForVSForEvh (parent : AviEvhVsNode) (hostname : String) : AviEvhVsNode :=
  let policyname := GetL7HttpRedirPolicy parent.data.Name
  let myHppMap : AviRedirectPort :=
    { Hosts := [hostname], RedirectPort := 443, StatusCode := STATUS_REDIRECT, VsPort := 80 }
  let redirectPolicy : AviHttpPolicySetNode :=
    { Name := policyname, Tenant := GetTenant, HppMap := [], RedirectPorts := [myHppMap],
      CloudConfigCksum := 0 }
  let r := FindAndReplaceRedirectHTTPPolicyInModelforEvh parent redirectPolicy hostname
  if r.1 then r.2
  else r.2.upd fun d =>
    { d with HttpPolicyRefs := d.HttpPolicyRefs ++ [redirectPolicy.CalculateCheckSum] }

/-- Loop body of `RemoveRedirectHTTPPolicyInModelForEvh`: every policy with the
redirect-policy name has the hostname removed from its hosts array and is
dropped when that array becomes empty. (The Go loop mutates the slice it
ranges over; the builder keeps at most one policy with this name, on which the
two behaviours agree.) -/
def removeRedirectList (policyName hostname : String) :
    List AviHttpPolicySetNode → List AviHttpPolicySetNode
  | [] => []
  | p :: rest =>
    if p.Name == policyName then
      let hosts := RemoveElem (policyRedirectHosts p) hostname
      if hosts.isEmpty then removeRedirectList policyName hostname rest
      else policyWithRedirectHosts p hosts :: removeRedirectList policyName hostname rest
    else p :: removeRedirectList policyName hostname rest

/-- Translation of `RemoveRedirectHTTPPolicyInModelForEvh`. -/
def RemoveRedirectHTTPPolicyInModelForEvh (vsNode : AviEvhVsNode) (hostname : String) :
    AviEvhVsNode :=
  vsNode.upd fun d =>
    { d with HttpPolicyRefs :=
        removeRedirectList (GetL7HttpRedirPolicy vsNode.data.Name) hostname d.HttpPolicyRefs }

/-! The host-rule overlay (`BuildL7HostRule`, crd_translator.go). -/

/-- Host-rule CRD content as read by `BuildL7HostRule` (the relevant fields of
`akov1alpha1.HostRule`). -/
structure HostRuleCRD where
  Namespace : String
  Name : String
  Status : String
  SSLKeyCertificateName : String
  SSLProfile : String
  WAFPolicy : String
  ApplicationProfile : String
  ErrorPageProfile : String
  AnalyticsProfile : String
  HTTPPolicySets : List String
  HTTPPolicyOverwrite : Bool
  Datascripts : List String
  EnableVirtualHost : Option Bool
  deriving Repr, DecidableEq

/-- Outcome of looking up the host rule mapped to a host: no FQDN mapping in
the CRD lister, an informer error on Get, or the rule itself. -/
inductive HostRuleLookup : Type where
  | noMapping : HostRuleLookup
  | getError : HostRuleLookup
  | found : HostRuleCRD → HostRuleLookup
  deriving Repr, DecidableEq

/-- Dedup-append fold used for policy-set and data-script ref lists. -/
def dedupAppendRefs (pre : String) (items : List String) : List String :=
  items.foldl
    (fun acc it => if HasElem acc (pre ++ it) then acc else acc ++ [pre ++ it]) []

/-- Common tail of `BuildL7HostRule` (lines 121-133): write every host-rule ref
field and the CRD status onto the node. -/
def setL7HostRuleRefs (vsNode : AviEvhVsNode) (vsSslKeyCertificate vsWafPolicy : String)
    (vsHTTPPolicySets : List String) (vsAppProfile vsAnalyticsProfile vsErrorPageProfile
    vsSslProfile : String) (vsDatascripts : List String) (vsEnabled : Option Bool)
    (crdStatus : CRDMetadata) : AviEvhVsNode :=
  vsNode.upd fun d =>
    { d with
      SSLKeyCertAviRef := vsSslKeyCertificate
      WafPolicyRef := vsWafPolicy
      HttpPolicySetRefs := vsHTTPPolicySets
      AppProfileRef := vsAppProfile
      AnalyticsProfileRef := vsAnalyticsProfile
      ErrorPageProfileRef := vsErrorPageProfile
      SSLProfileRef := vsSslProfile
      VsDatascriptRefs := vsDatascripts
      Enabled := vsEnabled
      ServiceMetadata := { d.ServiceMetadata with CRDStatus := crdStatus } }

/-- Apply branch of `BuildL7HostRule` (non-delete, non-rejected): compute each
remote ref from the rule, drop the locally built SSL leaves when the rule
carries a certificate ref, drop the auto-built HTTP policies on overwrite,
dedup the list refs, and mark the CRD ACTIVE. -/
def buildL7HostRuleApply (hr : HostRuleCRD) (vsNode0 : AviEvhVsNode) : AviEvhVsNode :=
  let vsSslKeyCertificate :=
    if hr.SSLKeyCertificateName != "" then
      "/api/sslkeyandcertificate?name=" ++ hr.SSLKeyCertificateName
    else ""
  let vsNode1 :=
    if hr.SSLKeyCertificateName != "" then
      vsNode0.upd (fun d => { d with SSLKeyCertRefs := [] })
    else vsNode0
  let vsSslProfile :=
    if hr.SSLProfile != "" then "/api/sslprofile?name=" ++ hr.SSLProfile else ""
  let vsWafPolicy :=
    if hr.WAFPolicy != "" then "/api/wafpolicy?name=" ++ hr.WAFPolicy else ""
  let vsAppProfile :=
    if hr.ApplicationProfile != "" then
      "/api/applicationprofile?name=" ++ hr.ApplicationProfile
    else ""
  let vsErrorPageProfile :=
    if hr.ErrorPageProfile != "" then "/api/errorpageprofile?name=" ++ hr.ErrorPageProfile else ""
  let vsAnalyticsProfile :=
    if hr.AnalyticsProfile != "" then
      "/api/analyticsprofile?name=" ++ hr.AnalyticsProfile
    else ""
  let vsHTTPPolicySets := dedupAppendRefs "/api/httppolicyset?name=" hr.HTTPPolicySets
  let vsNode2 :=
    if hr.HTTPPolicyOverwrite then vsNode1.upd (fun d => { d with HttpPolicyRefs := [] })
    else vsNode1
  let vsDatascripts := dedupAppendRefs "/api/vsdatascriptset?name=" hr.Datascripts
  let crdStatus : CRDMetadata :=
    { CrdType := "HostRule", Value := hr.Namespace ++ "/" ++ hr.Name, Status := "ACTIVE" }
  setL7HostRuleRefs vsNode2 vsSslKeyCertificate vsWafPolicy vsHTTPPolicySets vsAppProfile
    vsAnalyticsProfile vsErrorPageProfile vsSslProfile vsDatascripts hr.EnableVirtualHost
    crdStatus

/-- Delete branch of `BuildL7HostRule`: every ref field is reset to its zero
value, and when the node carried a CRD status with a value that status is
kept with state INACTIVE. -/
def buildL7HostRuleDelete (vsNode : AviEvhVsNode) : AviEvhVsNode :=
  let crdStatus : CRDMetadata :=
    if vsNode.data.ServiceMetadata.CRDStatus.Value != "" then
      { vsNode.data.ServiceMetadata.CRDStatus with Status := "INACTIVE" }
    else { CrdType := "", Value := "", Status := "" }
  setL7HostRuleRefs vsNode "" "" [] "" "" "" "" [] none crdStatus

/-- Translation of `BuildL7HostRule` (crd_translator.go): the delete case runs
when the host has no mapped rule or the rule cannot be retrieved; a rejected
rule returns the node unchanged ("this way the VS would retain"); otherwise
the rule's refs are applied. -/
def BuildL7HostRule (lookup : HostRuleLookup) (vsNode : AviEvhVsNode) : AviEvhVsNode :=
  match lookup with
  | .noMapping => buildL7HostRuleDelete vsNode
  | .getError => buildL7HostRuleDelete vsNode
  | .found hr =>
    if hr.Status == StatusRejected then vsNode
    else buildL7HostRuleApply hr vsNode

/-! The HTTP-rule overlay (`BuildPoolHTTPRule`, crd_translator.go). -/

/-- TLS block of an HTTP-rule path (`akov1alpha1.HTTPRulePaths.TLS`); the Go
field `Type` is rendered `TlsType`. -/
structure HTTPRuleTLS where
  TlsType : String
  SSLProfile : String
  DestinationCA : String
  deriving Repr, DecidableEq

/-- Load-balancer policy block of an HTTP-rule path; the Go field `Hash` is
rendered `HashAlgo`. -/
structure HTTPRuleLBPolicy where
  Algorithm : String
  HashAlgo : String
  HostHeader : String
  deriving Repr, DecidableEq

/-- One entry of `HTTPRule.Spec.Paths`. -/
structure HTTPRulePath where
  Target : String
  TLS : HTTPRuleTLS
  HealthMonitors : List String
  LoadBalancerPolicy : HTTPRuleLBPolicy
  deriving Repr, DecidableEq

/-- HTTP-rule CRD content as read by `BuildPoolHTTPRule`. -/
structure HTTPRuleCRD where
  Status : String
  Paths : List HTTPRulePath
  deriving Repr, DecidableEq

/-- Modelled from the spec: `lib.GetPoolPKIProfileName`. -/
def GetPoolPKIProfileName (poolName : String) : String := poolName ++ "-pkiprofile"

/-- Character-level match against an interpolated regex literal: a `.` in the
interpolated strings is the regex wildcard and matches any character. -/
def charPatMatch (p c : Char) : Bool := p == '.' || p == c

/-- Consume the pattern from the front of the text; on success return the
remaining text. -/
def patConsume : List Char → List Char → Option (List Char)
  | [], s => some s
  | _ :: _, [] => none
  | p :: ps, c :: cs => if charPatMatch p c then patConsume ps cs else none

/-- Does the pattern match starting at any position of the text? -/
def patFindSub (pat : List Char) : List Char → Bool
  | [] => (patConsume pat []).isSome
  | c :: cs => (patConsume pat (c :: cs)).isSome || patFindSub pat cs

/-- Match of the interpolated regex `^A.*B` (unanchored at the end, as
`regexp.MatchString` is): `A` matches a prefix of the name and `B` matches
somewhere in the rest. -/
def regexStartDotStar (a b name : String) : Bool :=
  match patConsume a.data name.data with
  | none => false
  | some rest => patFindSub b.data rest

/-- Pool-name match of `BuildPoolHTTPRule`: the SNI regex
`^<prefix><ns>-<host><pathPrefix>.*-<ingress>` when `isSNI`, the shared-VS
regex `^<prefix><host><pathPrefix>.*-<ns>-<ingress>` otherwise, with `/`
replaced by `_` in the path. -/
def poolMatchesHTTPRule (poolName host path rrNamespace ingName : String) (isSNI : Bool) : Bool :=
  let pathPre := replaceSlashUnderscore path
  let secureMatch := regexStartDotStar (GetNamePrefix ++ rrNamespace ++ "-" ++ host ++ pathPre)
    ("-" ++ ingName) poolName
  let insecureMatch := regexStartDotStar (GetNamePrefix ++ host ++ pathPre)
    ("-" ++ rrNamespace ++ "-" ++ ingName) poolName
  (secureMatch && isSNI) || (insecureMatch && !isSNI)

/-- Association-list lookup for the prefetched `httpruleNameObjMap`. -/
def assocFind (l : List (String × HTTPRulePath)) (k : String) : Option HTTPRulePath :=
  (l.find? (fun e => e.1 == k)).map (fun e => e.2)

/-- Association-list insert with map semantics (an existing key is
overwritten). -/
def assocPut (l : List (String × HTTPRulePath)) (k : String) (v : HTTPRulePath) :
    List (String × HTTPRulePath) :=
  if l.any (fun e => e.1 == k) then l.map (fun e => if e.1 == k then (k, v) else e)
  else l ++ [(k, v)]

/-- Per-pool body of `BuildPoolHTTPRule` (lines 185-252), applied to a pool
whose name matched the layout regex: set the re-encrypt TLS fields (building a
PKI profile sub-node when a destination CA is present), append deduplicated
health monitors, set the LB algorithm, and assign the host header only for a
consistent hash by custom header with a non-empty header (otherwise the
field is left as it was, with only a warning logged), then mark the pool's
CRD status ACTIVE. -/
def applyHTTPRulePathToPool (hrp : HTTPRulePath) (rule : String) (pool : AviPoolNode) :
    AviPoolNode :=
  let isPathSniEnabled := pool.SniEnabled
  let pathSslProfile := pool.SslProfileRef
  let destinationCertNode := pool.PkiProfile
  let pathHMs := pool.HealthMonitors
  let tlsTriple :=
    if hrp.TLS.TlsType != "" then
      let ssl :=
        if hrp.TLS.SSLProfile != "" then "/api/sslprofile?name=" ++ hrp.TLS.SSLProfile
        else "/api/sslprofile?name=" ++ DefaultPoolSSLProfile
      let dst :=
        if hrp.TLS.DestinationCA != "" then
          some { Name := GetPoolPKIProfileName pool.Name, Tenant := GetTenant,
                 CACert := hrp.TLS.DestinationCA : AviPkiProfileNode }
        else none
      (true, ssl, dst)
    else (isPathSniEnabled, pathSslProfile, destinationCertNode)
  let pathHMs := hrp.HealthMonitors.foldl
    (fun acc hm =>
      if HasElem acc ("/api/healthmonitor?name=" ++ hm) then acc
      else acc ++ ["/api/healthmonitor?name=" ++ hm]) pathHMs
  let pool1 := { pool with
    SniEnabled := tlsTriple.1
    SslProfileRef := tlsTriple.2.1
    PkiProfile := tlsTriple.2.2
    HealthMonitors := pathHMs
    LbAlgorithm := hrp.LoadBalancerPolicy.Algorithm }
  let pool2 :=
    if pool1.LbAlgorithm == LB_ALGORITHM_CONSISTENT_HASH then
      let p := { pool1 with LbAlgorithmHash := hrp.LoadBalancerPolicy.HashAlgo }
      if p.LbAlgorithmHash == LB_ALGORITHM_CONSISTENT_HASH_CUSTOM_HEADER then
        if hrp.LoadBalancerPolicy.HostHeader != "" then
          { p with LbAlgoHostHeader := hrp.LoadBalancerPolicy.HostHeader }
        else p
      else p
    else pool1
  { pool2 with ServiceMetadata := { pool2.ServiceMetadata with
      CRDStatus := { CrdType := "HTTPRule", Value := rule, Status := "ACTIVE" } } }

/-- Translation of `BuildPoolHTTPRule` (crd_translator.go). `pathRulesOpt`
models `GetFqdnHTTPRulesMapping(host)` as an association list in an arbitrary
iteration order (Go map iteration order is unspecified); `ruleGet` models the
informer lookup, `none` being an error. The `pathArg` parameter of the Go
function is unused by its body and omitted here. Rejected rules are skipped
during prefetch; each matched pool of the node is updated in place. -/
def BuildPoolHTTPRule (pathRulesOpt : Option (List (String × String)))
    (ruleGet : String → Option HTTPRuleCRD) (host ingName ns : String)
    (vsNode : AviEvhVsNode) (isSNI : Bool) : AviEvhVsNode :=
  match pathRulesOpt with
  | none => vsNode
  | some pathRules =>
    let getHTTPRules := pathRules.foldl
      (fun acc pr => if acc.contains pr.2 then acc else acc ++ [pr.2]) []
    let httpruleNameObjMap := getHTTPRules.foldl
      (fun acc httprule =>
        match ruleGet httprule with
        | none => acc
        | some obj =>
          if obj.Status == StatusRejected then acc
          else obj.Paths.foldl (fun acc2 p => assocPut acc2 (httprule ++ p.Target) p) acc) []
    pathRules.foldl
      (fun node pr =>
        let path := pr.1
        let rule := pr.2
        let rrNamespace := firstSlashComponent rule
        match assocFind httpruleNameObjMap (rule ++ path) with
        | none => node
        | some httpRulePath =>
          if httpRulePath.TLS.TlsType != "" && httpRulePath.TLS.TlsType != TypeTLSReencrypt then
            node
          else
            node.upd fun d =>
              { d with PoolRefs := d.PoolRefs.map (fun pool =>
                  if poolMatchesHTTPRule pool.Name host path rrNamespace ingName isSNI then
                    applyHTTPRulePathToPool httpRulePath rule pool
                  else pool) })
      vsNode

/-! TLS certificate node construction (secure-ingress path). -/

/-- Kubernetes secret content as read by the builder: the `tls.crt` and
`tls.key` entries of the secret's data map, each possibly absent. -/
structure SecretData where
  cert : Option String
  key : Option String
  deriving Repr, DecidableEq

/-- One TLS setting of the parsed ingress (secret identity, optional inline
Route key/cert material, and the redirect flag). The per-setting host map is
handled by the caller. -/
structure TlsSettings where
  SecretName : String
  SecretNS : String
  cert : String
  key : String
  cacert : String
  redirect : Bool
  deriving Repr, DecidableEq

/-- Translation of `BuildCACertNodeForEvh`: build the CA cert node and store it
on the node (overwriting the single existing CA ref, or replacing by name);
returns the CA node name. -/
def BuildCACertNodeForEvh (tlsNode : AviEvhVsNode) (cacert keycertname : String) :
    String × AviEvhVsNode :=
  let cacertNode : AviTLSKeyCertNode :=
    { Name := GetCACertNodeName keycertname, Tenant := GetTenant, CertType := CertTypeCA,
      Cert := cacert, Key := "", CACert := "" }
  let tlsNode1 :=
    if CheckCACertNodeNameNChecksum tlsNode cacertNode.Name cacertNode.GetCheckSum then
      if tlsNode.data.CACertRefs.length == 1 then
        tlsNode.upd fun d => { d with CACertRefs := [cacertNode] }
      else ReplaceCACertRefInEVHNode tlsNode cacertNode
    else tlsNode
  (cacertNode.Name, tlsNode1)

/-- Common tail of `BuildTlsCertNodeForEvh` (the host-variant branch): replace
the SSL ref on the node unless an identical one is present, and report
success. -/
def buildTlsCertFinish (certNode : AviTLSKeyCertNode) (tlsNode : AviEvhVsNode)
    (ns secretName host : String) (secretToIng : List (String × List String)) :
    Bool × AviEvhVsNode × List (String × List String) :=
  let tlsNode1 :=
    if CheckSSLCertNodeNameNChecksum tlsNode (GetTLSKeyCertNodeName ns secretName host)
        certNode.GetCheckSum then
      ReplaceEvhSSLRefInEVHNode tlsNode certNode
    else tlsNode
  (true, tlsNode1, secretToIng)

/-- Translation of `BuildTlsCertNodeForEvh` (avi_model_evh_nodes.go, with the
host argument the EVH caller always passes). `secrets` models the Kubernetes
secret lookup; `secretToIng` models the secret-to-ingress bookkeeping of the
service lister (`GetSecretToIng` / `DeleteSecretToIngMapping`). The function
reports `false` — building no cert node — when the Route-style setting lacks
inline cert or key material, when the secret is missing, or when the secret
lacks the certificate or the key entry. -/
def BuildTlsCertNodeForEvh (secrets : String → String → Option SecretData)
    (secretToIng : List (String × List String)) (tlsNode : AviEvhVsNode)
    (ns : String) (tlsData : TlsSettings) (host : String) :
    Bool × AviEvhVsNode × List (String × List String) :=
  let secretName := tlsData.SecretName
  let secretNS := if tlsData.SecretNS == "" then ns else tlsData.SecretNS
  let certNode0 : AviTLSKeyCertNode :=
    { Name := GetTLSKeyCertNodeName ns secretName host, Tenant := GetTenant,
      CertType := CertTypeVS, Cert := "", Key := "", CACert := "" }
  if strHasPre RouteSecretsPrefix secretName then
    if tlsData.cert != "" && tlsData.key != "" then
      let certNode1 := { certNode0 with Cert := tlsData.cert, Key := tlsData.key }
      let step :=
        if tlsData.cacert != "" then
          let r := BuildCACertNodeForEvh tlsNode tlsData.cacert certNode1.Name
          ({ certNode1 with CACert := r.1 }, r.2)
        else (certNode1, DeleteCACertRefInEVHNode tlsNode (GetCACertNodeName certNode1.Name))
      buildTlsCertFinish step.1 step.2 ns secretName host secretToIng
    else
      let st :=
        if (secretToIng.find? (fun e => e.1 == secretName)).isSome then
          secretToIng.filter (fun e => !(e.1 == secretName))
        else secretToIng
      (false, tlsNode, st)
  else
    match secrets secretNS secretName with
    | none =>
      let st :=
        match secretToIng.find? (fun e => e.1 == secretName) with
        | some e =>
          if e.2.isEmpty then secretToIng.filter (fun e2 => !(e2.1 == secretName))
          else secretToIng
        | none => secretToIng
      (false, tlsNode, st)
    | some secretObj =>
      match secretObj.cert with
      | none => (false, tlsNode, secretToIng)
      | some cert =>
        match secretObj.key with
        | none => (false, tlsNode, secretToIng)
        | some tlsKey =>
          buildTlsCertFinish { certNode0 with Cert := cert, Key := tlsKey } tlsNode
            ns secretName host secretToIng

/-! Pool-group, pool and per-path policy construction
(`BuildPolicyPGPoolsForEVH`). In Go the freshly built pool-group object is
shared by pointer between the per-request `localPGList` and the child node, so
a member appended for an alternate backend is visible through both; the model
keeps the child's pool-group list as entries that are either pre-existing
objects or aliases into `localPGList`, and materializes the aliases at the end
of the request. -/

/-- Path types of the parsed ingress rule. -/
inductive IngPathType : Type where
  | exact : IngPathType
  | prefixType : IngPathType
  | implementationSpecific : IngPathType
  deriving Repr, DecidableEq

/-- One `(path, pathType, service, port, weight)` entry of the parsed host
map. -/
structure IngressHostPathSvc where
  Path : String
  PathType : IngPathType
  ServiceName : String
  PortName : String
  weight : Nat
  deriving Repr, DecidableEq

/-- Child entry of the pool-group list during one build request: a
pre-existing node, or an alias of the request's `localPGList` entry. -/
inductive PGEntry : Type where
  | old : AviPoolGroupNode → PGEntry
  | fresh : String → PGEntry
  deriving Repr, DecidableEq

/-- Name of a pool-group entry. -/
def PGEntry.name : PGEntry → String
  | .old pg => pg.Name
  | .fresh n => n

/-- Association-list lookup of a local pool group's members. -/
def localPGMembers (localPG : List (String × List PoolGroupMember)) (n : String) :
    List PoolGroupMember :=
  match localPG.find? (fun e => e.1 == n) with
  | some e => e.2
  | none => []

/-- Content a pool-group entry denotes, resolving aliases through the local
list. -/
def PGEntry.content (localPG : List (String × List PoolGroupMember)) : PGEntry → AviPoolGroupNode
  | .old pg => pg
  | .fresh n => { Name := n, Tenant := GetTenant, Members := localPGMembers localPG n }

/-- The `CheckPGNameNChecksum` test evaluated on the aliased entry list. -/
def checkPGEntries (localPG : List (String × List PoolGroupMember)) (entries : List PGEntry)
    (nm : String) (cks : Nat) : Bool :=
  match entries.find? (fun e => e.name == nm) with
  | some e => !((e.content localPG).GetCheckSum == cks)
  | none => true

/-- The `ReplaceEvhPGInEVHNode` loop evaluated on the aliased entry list: the
first name match is removed and a fresh alias appended. -/
def replacePGEntries : List PGEntry → String → List PGEntry
  | [], nm => [.fresh nm]
  | e :: rest, nm =>
    if e.name == nm then rest ++ [.fresh nm]
    else e :: replacePGEntries rest nm

/-- The `CheckPoolNChecksum` test on a plain pool list. -/
def checkPoolListCks (pools : List AviPoolNode) (nm : String) (cks : Nat) : Bool :=
  !(pools.any (fun p => p.Name == nm && p.GetCheckSum == cks))

/-- The `CheckHttpPolNameNChecksumForEvh` test on a plain policy list. -/
def checkHttpPolListCks (https : List AviHttpPolicySetNode) (nm : String) (cks : Nat) : Bool :=
  !(https.any (fun p => p.Name == nm && p.GetCheckSum == cks))

/-- State of the per-path loop of `BuildPolicyPGPoolsForEVH`. -/
structure PGBuildState where
  localPG : List (String × List PoolGroupMember)
  entries : List PGEntry
  pools : List AviPoolNode
  https : List AviHttpPolicySetNode

/-- Loop body of `BuildPolicyPGPoolsForEVH` for one `(path, service, weight)`
entry: create the pool group once per path name, append the member with the
path's weight ratio, build the pool (all services of a path share the pool
name), and build the per-path HTTP policy when the pool group was created in
this iteration. -/
def buildPGPoolPathEntry (populateServers : String → String → Option (List String))
    (ns ingName host : String) (st : PGBuildState) (path : IngressHostPathSvc) : PGBuildState :=
  let matchCriteria := if path.PathType == IngPathType.exact then "EQUALS" else "BEGINS_WITH"
  let httpPGPath : AviHostPathPortPoolPG :=
    { Host := host
      Path := if path.Path != "" then [path.Path] else []
      MatchCriteria := matchCriteria
      PoolGroup := "" }
  let pgName := GetEvhVsPoolNPgName ingName ns host path.Path
  let pgfound := (st.localPG.find? (fun e => e.1 == pgName)).isSome
  let local1 := if pgfound then st.localPG else st.localPG ++ [(pgName, [])]
  let poolName := GetEvhVsPoolNPgName ingName ns host path.Path
  let poolNode0 : AviPoolNode :=
    { Name := poolName, PortName := path.PortName, Tenant := GetTenant,
      VrfContext := GetVrf, IngressName := "",
      ServiceMetadata :=
        { IngressName := ingName, NamespaceIngressName := [], Namespace := ns,
          HostNames := [host], CRDStatus := { CrdType := "", Value := "", Status := "" } },
      Servers := [], SniEnabled := false, SslProfileRef := "", PkiProfile := none,
      HealthMonitors := [], LbAlgorithm := "", LbAlgorithmHash := "", LbAlgoHostHeader := "" }
  let poolNode :=
    match populateServers ns path.ServiceName with
    | some servers => { poolNode0 with Servers := servers }
    | none => poolNode0
  let poolRef := "/api/pool?name=" ++ poolName
  let member : PoolGroupMember := { PoolRef := poolRef, Ratio := path.weight }
  let local2 := local1.map (fun e => if e.1 == pgName then (e.1, e.2 ++ [member]) else e)
  let pgNodeNow : AviPoolGroupNode :=
    { Name := pgName, Tenant := GetTenant, Members := localPGMembers local2 pgName }
  let entries1 :=
    if checkPGEntries local2 st.entries pgNodeNow.Name pgNodeNow.GetCheckSum then
      replacePGEntries st.entries pgNodeNow.Name
    else st.entries
  let pools1 :=
    if checkPoolListCks st.pools poolNode.Name poolNode.GetCheckSum then
      replacePoolList st.pools poolNode
    else st.pools
  let https1 :=
    if !pgfound then
      let httppolname := GetSniHttpPolName ingName ns host path.Path
      let policyNode : AviHttpPolicySetNode :=
        { Name := httppolname, Tenant := GetTenant,
          HppMap := [{ httpPGPath with PoolGroup := pgName, Host := host }],
          RedirectPorts := [], CloudConfigCksum := 0 }
      if checkHttpPolListCks st.https httppolname policyNode.GetCheckSum then
        replaceHttpPolList st.https policyNode
      else st.https
    else st.https
  { localPG := local2, entries := entries1, pools := pools1, https := https1 }

/-- Translation of `BuildPolicyPGPoolsForEVH` (avi_model_evh_nodes.go): add the
host to the parent VSVIP's FQDN set and the child's domain names, run the
per-path pool-group/pool/policy loop, then run `BuildPoolHTTPRule` once per
path (the source passes `isSNI = true` here). Returns the updated parent and
child. -/
def BuildPolicyPGPoolsForEVH (populateServers : String → String → Option (List String))
    (pathRulesOpt : Option (List (String × String))) (ruleGet : String → Option HTTPRuleCRD)
    (parent childNode : AviEvhVsNode) (ns ingName host : String)
    (paths : List IngressHostPathSvc) : AviEvhVsNode × AviEvhVsNode :=
  let parent1 := parent.upd fun d =>
    { d with VSVIPRefs :=
        match d.VSVIPRefs with
        | [] => []
        | v :: rest =>
          (if HasElem v.FQDNs host then v else { v with FQDNs := v.FQDNs ++ [host] }) :: rest }
  let child1 := childNode.upd fun d =>
    { d with VHDomainNames :=
        if HasElem d.VHDomainNames host then d.VHDomainNames else d.VHDomainNames ++ [host] }
  let st0 : PGBuildState :=
    { localPG := [], entries := child1.data.PoolGroupRefs.map PGEntry.old,
      pools := child1.data.PoolRefs, https := child1.data.HttpPolicyRefs }
  let st := paths.foldl (buildPGPoolPathEntry populateServers ns ingName host) st0
  let child2 := child1.upd fun d =>
    { d with
      PoolGroupRefs := st.entries.map (PGEntry.content st.localPG)
      PoolRefs := st.pools
      HttpPolicyRefs := st.https }
  let child3 := paths.foldl
    (fun c _p => BuildPoolHTTPRule pathRulesOpt ruleGet host ingName ns c true) child2
  (parent1, child3)

/-! Shared parent-VS construction, sharding, and the per-host builder steps. -/

/-- Modelled from the spec: `lib.GetNetworkName`, the configured VIP network
(empty when unset). -/
def GetNetworkName : String := ""

/-- Zero-valued EVH node field record (Go zero value of the struct). -/
def emptyEvhData : EvhData AviEvhVsNode :=
  { EVHParent := false, VHParentName := "", VHDomainNames := [], EvhNodes := [],
    EvhHostName := "", Name := "", Tenant := "", ServiceEngineGroup := "",
    ApplicationProfile := "", NetworkProfile := "", EnableRhi := none, Enabled := none,
    PortProto := [], DefaultPool := "", DefaultPoolGroup := "", PoolGroupRefs := [],
    PoolRefs := [], HTTPDSrefs := [], SharedVS := false, CACertRefs := [],
    SSLKeyCertRefs := [], HttpPolicyRefs := [], VSVIPRefs := [], TLSType := "",
    ServiceMetadata := ServiceMetadataObj.empty, VrfContext := "", WafPolicyRef := "",
    AppProfileRef := "", AnalyticsProfileRef := "", ErrorPageProfileRef := "",
    HttpPolicySetRefs := [], VsDatascriptRefs := [], SSLProfileRef := "",
    SSLKeyCertAviRef := "" }

/-- Translation of `ConstructAviL7SharedVsNodeForEvh`: the shared parent VS
with its hard-coded 80/443 listeners, default profiles, EVH-parent flag, VRF
and single VSVIP whose FQDN list is seeded from the cloud's IPAM-DNS
subdomain when one is configured (`subDomain` models
`GetDefaultSubDomain()[0]`). -/
def ConstructAviL7SharedVsNodeForEvh (vsName : String) (subDomain : Option String) :
    AviEvhVsNode :=
  let base0 := { emptyEvhData with Name := vsName, Tenant := GetTenant, SharedVS := true }
  let base1 :=
    if GetSEGName != DEFAULT_SE_GROUP then { base0 with ServiceEngineGroup := GetSEGName }
    else base0
  let httpPort : AviPortHostProtocol :=
    { Name := "", Port := 80, Protocol := ProtocolHTTP, EnableSSL := false }
  let httpsPort : AviPortHostProtocol :=
    { Name := "", Port := 443, Protocol := ProtocolHTTP, EnableSSL := true }
  let base2 := { base1 with
    PortProto := [httpPort, httpsPort]
    ApplicationProfile := DEFAULT_L7_SECURE_APP_PROFILE
    NetworkProfile := DEFAULT_TCP_NW_PROFILE
    EVHParent := true
    VrfContext := GetVrf }
  let fqdns :=
    match subDomain with
    | some sd =>
      if strHasPre "." sd then [vsName ++ "." ++ GetTenant ++ sd]
      else [vsName ++ "." ++ GetTenant ++ "." ++ sd]
    | none => []
  let vsVipNode : AviVSVIPNode :=
    { Name := GetVsVipName vsName, Tenant := GetTenant, VrfContext := GetVrf,
      FQDNs := fqdns, EastWest := false,
      NetworkName := if GetNetworkName != "" then some GetNetworkName else none }
  AviEvhVsNode.mk { base2 with VSVIPRefs := [vsVipNode] }

/-- Translation of `DeriveHostNameShardVSForEvh`: with a zero shard size the
function reports the host unshardable by returning the empty string; otherwise
the shard name is the prefix `<namePrefix><ShardVSPrefix>-EVH-` followed by
the host's hash bucket. -/
def DeriveHostNameShardVSForEvh (hostname : String) (shardSize : Nat) : String :=
  let shardVsPrefix := GetNamePrefix ++ ShardVSPrefix ++ "-EVH-"
  if shardSize != 0 then shardVsPrefix ++ toString (Bkt hostname shardSize)
  else ""

/-- Replace the first child with the given name in a child list. -/
def setFirstEvhChildList : List AviEvhVsNode → String → AviEvhVsNode → List AviEvhVsNode
  | [], _, _ => []
  | e :: rest, nm, c =>
    if e.data.Name == nm then c :: rest
    else e :: setFirstEvhChildList rest nm c

/-- Replace the first child with the given name (in Go the child object is
mutated in place through its pointer, so its position is preserved). -/
def setFirstEvhChild (parent : AviEvhVsNode) (nm : String) (c : AviEvhVsNode) : AviEvhVsNode :=
  parent.upd fun d => { d with EvhNodes := setFirstEvhChildList d.EvhNodes nm c }

/-- Environment of a build: pool-server resolution, the CRD listers and the
Kubernetes secret lookup, all external to the two source files. -/
structure BuildEnv where
  populateServers : String → String → Option (List String)
  hostRule : String → HostRuleLookup
  fqdnHTTPRules : String → Option (List (String × String))
  httpRuleGet : String → Option HTTPRuleCRD
  secrets : String → String → Option SecretData

/-- Result of the per-host body of `evhNodeHostName`: the updated shared
parent, the host's ingress-key map of the `SharedHostNameLister`, the
secret-to-ingress bookkeeping, and whether certificates were (considered)
built. -/
structure EvhHostStepResult where
  parent : AviEvhVsNode
  hostMap : List String
  secretToIng : List (String × List String)
  certsBuilt : Bool

/-- Translation of the per-host loop body of `evhNodeHostName`
(avi_model_evh_nodes.go lines 905-1018), given the already-fetched shard
model `parent`. The host's ingress map is first updated with this ingress;
certificates count as built when the secret name carries the dummy-secret
marker or when the pre-existing child already holds a host-rule certificate
ref (in both cases the Kubernetes secret is never read); otherwise the TLS
cert node is built from the secret. On success the child is (re)placed in the
parent and pools, policies, redirect policy and host rule are built; on
failure this ingress is removed from the host's map and, only when no other
ingress still claims the host, the child VS, its SSL ref and its
redirect-host entry are removed. -/
def evhNodeHostNameStep (env : BuildEnv) (ingName ns host : String)
    (paths : List IngressHostPathSvc) (tlssetting : TlsSettings)
    (parent : AviEvhVsNode) (hostMap0 : Option (List String))
    (secretToIng : List (String × List String)) : EvhHostStepResult :=
  let mapKey := ns ++ "/" ++ ingName
  let hostMap1 :=
    match hostMap0 with
    | some m => if m.contains mapKey then m else m ++ [mapKey]
    | none => [mapKey]
  let certsBuilt0 := strHasPre DummySecret tlssetting.SecretName
  let evhNodeName := GetEvhNodeName ingName ns host
  let existing := GetEvhNodeForName parent evhNodeName
  let child0 :=
    match existing with
    | none =>
      let base0 := { emptyEvhData with
        Name := evhNodeName, VHParentName := parent.data.Name, Tenant := GetTenant,
        EVHParent := false, EvhHostName := host,
        ServiceMetadata := { ServiceMetadataObj.empty with
          NamespaceIngressName := hostMap1, Namespace := ns, HostNames := [host] } }
      let base1 :=
        if GetSEGName != DEFAULT_SE_GROUP then { base0 with ServiceEngineGroup := GetSEGName }
        else base0
      AviEvhVsNode.mk base1
    | some ev =>
      ev.upd fun d =>
        { d with ServiceMetadata := { d.ServiceMetadata with
            NamespaceIngressName := hostMap1, Namespace := ns, HostNames := [host] } }
  let certsBuilt1 :=
    match existing with
    | some ev => certsBuilt0 || (ev.data.SSLKeyCertAviRef != "")
    | none => certsBuilt0
  let child1 := child0.upd fun d =>
    { d with
      ServiceEngineGroup :=
        if GetSEGName != DEFAULT_SE_GROUP then GetSEGName else d.ServiceEngineGroup
      VrfContext := GetVrf }
  let parent0 :=
    match existing with
    | some _ => setFirstEvhChild parent evhNodeName child1
    | none => parent
  let tlsRes :=
    if !certsBuilt1 then
      BuildTlsCertNodeForEvh env.secrets secretToIng parent0 ns tlssetting host
    else (true, parent0, secretToIng)
  if tlsRes.1 then
    let pg := BuildPolicyPGPoolsForEVH env.populateServers (env.fqdnHTTPRules host)
      env.httpRuleGet tlsRes.2.1 child1 ns ingName host paths
    let child2 := pg.2
    let parentB :=
      match existing with
      | some _ => setFirstEvhChild pg.1 evhNodeName child2
      | none => pg.1.upd fun d => { d with EvhNodes := d.EvhNodes ++ [child2] }
    let parentC := RemoveRedirectHTTPPolicyInModelForEvh parentB host
    let parentD :=
      if tlssetting.redirect then BuildPolicyRedirectForVSForEvh parentC host else parentC
    let child3 := BuildL7HostRule (env.hostRule host) child2
    let parentE := setFirstEvhChild parentD evhNodeName child3
    { parent := parentE, hostMap := hostMap1, secretToIng := tlsRes.2.2, certsBuilt := true }
  else
    let hostMapAfter := hostMap1.filter (fun k => !(k == mapKey))
    if hostMapAfter.isEmpty then
      let parentB := DeleteSSLRefInEVHNode tlsRes.2.1
        (GetTLSKeyCertNodeName ns tlssetting.SecretName host)
      let parentC := RemoveEvhInModel evhNodeName parentB
      let parentD := RemoveRedirectHTTPPolicyInModelForEvh parentC host
      { parent := parentD, hostMap := hostMapAfter, secretToIng := tlsRes.2.2,
        certsBuilt := false }
    else
      { parent := tlsRes.2.1, hostMap := hostMapAfter, secretToIng := tlsRes.2.2,
        certsBuilt := false }

/-! The insecure-ingress entry point (`ProcessInsecureHostsForEVH`). -/

/-- Modelled from the spec: the `lib.Policy*` state tags of a stored host. -/
def PolicyNone : String := "None"

/-- Modelled from the spec: allow tag of the insecure policy. -/
def PolicyAllow : String := "Allow"

/-- Modelled from the spec: edge-termination tag of the secure policy. -/
def PolicyEdgeTerm : String := "EdgeTerm"

/-- Modelled from the spec: redirect tag of the insecure policy. -/
def PolicyRedirect : String := "Redirect"

/-- Modelled from the spec: passthrough tag of the secure policy. -/
def PolicyPass : String := "Pass"

/-- Stored per-host state of an ingress (`objects.RouteIngrhost`, outside
src/): the secure and insecure policy tags and the path-to-services map. -/
structure RouteIngrhost where
  SecurePolicy : String
  InsecurePolicy : String
  PathSvc : List (String × List String)
  deriving Repr, DecidableEq

/-- Modelled from the spec: the repository helper `getPathSvc` converts the
parsed path/service list into the stored path-to-services map, grouping
service names by path. -/
def getPathSvc (paths : List IngressHostPathSvc) : List (String × List String) :=
  paths.foldl
    (fun acc p =>
      if acc.any (fun e => e.1 == p.Path) then
        acc.map (fun e => if e.1 == p.Path then (e.1, e.2 ++ [p.ServiceName]) else e)
      else acc ++ [(p.Path, [p.ServiceName])]) []

/-- State threaded through `ProcessInsecureHostsForEVH`: the stored hosts of
the ingress, the freshly computed hosts map, and the shared graph lister
(model name to shared parent VS). -/
structure InsecureHostState where
  stored : List (String × RouteIngrhost)
  hostsMap : List (String × RouteIngrhost)
  graphs : List (String × AviEvhVsNode)

/-- Save of a model into the shared graph lister (`saveAviModel` +
`SharedAviGraphLister().Save`; the changed-model bookkeeping that feeds the
worker queue is not modelled). -/
def saveGraphModel (graphs : List (String × AviEvhVsNode)) (modelName : String)
    (g : AviEvhVsNode) : List (String × AviEvhVsNode) :=
  if graphs.any (fun e => e.1 == modelName) then
    graphs.map (fun e => if e.1 == modelName then (modelName, g) else e)
  else graphs ++ [(modelName, g)]

/-- Translation of the per-host loop body of `ProcessInsecureHostsForEVH`
(avi_model_evh_nodes.go lines 681-762): update the stored-host diff state and
the hosts map for this host, then derive the shard; an unshardable host
(empty shard name) returns early leaving the graphs untouched — note the
stored-host and hosts-map updates have already happened at that point.
Otherwise fetch or construct the shard model, fetch or create the child EVH
node, build its pool groups, pools and policies, apply the host rule, and
save the model. `getDiffPathSvc` models the resource's `GetDiffPathSvc`
method. -/
def processInsecureHostForEVH (env : BuildEnv)
    (getDiffPathSvc : List (String × List String) → List IngressHostPathSvc →
      List (String × List String))
    (shardSize : Nat) (subDomain : Option String) (ingName ns host : String)
    (pathsvcmap : List IngressHostPathSvc) (st : InsecureHostState) : InsecureHostState :=
  let stored1 :=
    match st.stored.find? (fun e => e.1 == host) with
    | some e =>
      let hostData := e.2
      if hostData.InsecurePolicy != PolicyNone then
        let pathSvcDiff := getDiffPathSvc hostData.PathSvc pathsvcmap
        if pathSvcDiff.isEmpty then
          st.stored.map (fun e2 =>
            if e2.1 == host then
              (host, { e2.2 with InsecurePolicy := PolicyNone, SecurePolicy := PolicyNone })
            else e2)
        else
          st.stored.map (fun e2 =>
            if e2.1 == host then (host, { e2.2 with PathSvc := pathSvcDiff }) else e2)
      else st.stored
    | none => st.stored
  let hm1 :=
    if st.hostsMap.any (fun e => e.1 == host) then st.hostsMap
    else st.hostsMap ++
      [(host, { SecurePolicy := PolicyNone, InsecurePolicy := "", PathSvc := [] })]
  let hm2 := hm1.map (fun e =>
    if e.1 == host then
      (host, { e.2 with InsecurePolicy := PolicyAllow, PathSvc := getPathSvc pathsvcmap })
    else e)
  let shardVsName := DeriveHostNameShardVSForEvh host shardSize
  if shardVsName == "" then
    { stored := stored1, hostsMap := hm2, graphs := st.graphs }
  else
    let modelName := GetModelName GetTenant shardVsName
    let aviModel :=
      match (st.graphs.find? (fun g => g.1 == modelName)).map (fun g => g.2) with
      | some g => g
      | none => ConstructAviL7SharedVsNodeForEvh shardVsName subDomain
    let evhNodeName := GetEvhNodeName ingName ns host
    let existing := GetEvhNodeForName aviModel evhNodeName
    let child0 :=
      match existing with
      | some ev => ev
      | none =>
        let base0 := { emptyEvhData with
          Name := evhNodeName, VHParentName := aviModel.data.Name, Tenant := GetTenant,
          EVHParent := false, EvhHostName := host,
          ServiceMetadata := { ServiceMetadataObj.empty with
            IngressName := ingName, Namespace := ns, HostNames := [host] } }
        let base1 :=
          if GetSEGName != DEFAULT_SE_GROUP then { base0 with ServiceEngineGroup := GetSEGName }
          else base0
        AviEvhVsNode.mk { base1 with VrfContext := GetVrf }
    let pg := BuildPolicyPGPoolsForEVH env.populateServers (env.fqdnHTTPRules host)
      env.httpRuleGet aviModel child0 ns ingName host pathsvcmap
    let child2 := BuildL7HostRule (env.hostRule host) pg.2
    let parent2 :=
      match existing with
      | some _ => setFirstEvhChild pg.1 evhNodeName child2
      | none => pg.1.upd fun d => { d with EvhNodes := d.EvhNodes ++ [child2] }
    { stored := stored1, hostsMap := hm2, graphs := saveGraphModel st.graphs modelName parent2 }

/-! Spec-side definitions used to state the claims. -/

/-- The shard name as the spec words it (§4.1): "prefix + \"-EVH-\" +
H(fqdn) mod size" with the configured name prefix applied. -/
def shardSpecName (hostname : String) (size : Nat) : String :=
  GetNamePrefix ++ ShardVSPrefix ++ "-EVH-" ++ toString (Hash hostname % size)

/-- A redirect add/remove event on a parent VS. -/
inductive RedirectOp : Type where
  | add : String → RedirectOp
  | remove : String → RedirectOp
  deriving Repr, DecidableEq

/-- Apply one redirect event through the source operations. -/
def applyRedirectOp (parent : AviEvhVsNode) : RedirectOp → AviEvhVsNode
  | .add h => BuildPolicyRedirectForVSForEvh parent h
  | .remove h => RemoveRedirectHTTPPolicyInModelForEvh parent h

/-- Run a sequence of redirect events. -/
def runRedirectOps (parent : AviEvhVsNode) (ops : List RedirectOp) : AviEvhVsNode :=
  ops.foldl applyRedirectOp parent

/-- The spec-side hosts array: an add appends the host when absent, a removal
erases it. -/
def specHostStep (hosts : List String) : RedirectOp → List String
  | .add h => if hosts.contains h then hosts else hosts ++ [h]
  | .remove h => hosts.erase h

/-- Hosts array the spec predicts after a sequence of redirect events. -/
def specRedirectHosts (ops : List RedirectOp) : List String :=
  ops.foldl specHostStep []

/-- The redirect policy node `BuildPolicyRedirectForVSForEvh` creates for a
host (before its checksum is computed). -/
def freshRedirectPolicy (policyname hostname : String) : AviHttpPolicySetNode :=
  { Name := policyname, Tenant := GetTenant, HppMap := [],
    RedirectPorts :=
      [{ Hosts := [hostname], RedirectPort := 443, StatusCode := STATUS_REDIRECT, VsPort := 80 }],
    CloudConfigCksum := 0 }

/-- Policies of a list bearing the parent's redirect-policy name. -/
def pnPolicies (pn : String) (refs : List AviHttpPolicySetNode) : List AviHttpPolicySetNode :=
  refs.filter (fun p => p.Name == pn)

/-- The success path of `evhNodeHostName` written out on its own: what the
builder does for a host whose certificates are (considered) built, with the
Kubernetes secret never consulted. Used to state that dummy-secret and
host-rule-certificate hosts are built exactly as if certificate construction
had succeeded. -/
def evhSuccessBuild (env : BuildEnv) (ingName ns host : String)
    (paths : List IngressHostPathSvc) (tlssetting : TlsSettings)
    (parent : AviEvhVsNode) (hostMap0 : Option (List String))
    (secretToIng : List (String × List String)) : EvhHostStepResult :=
  let mapKey := ns ++ "/" ++ ingName
  let hostMap1 :=
    match hostMap0 with
    | some m => if m.contains mapKey then m else m ++ [mapKey]
    | none => [mapKey]
  let evhNodeName := GetEvhNodeName ingName ns host
  let existing := GetEvhNodeForName parent evhNodeName
  let child0 :=
    match existing with
    | none =>
      let base0 := { emptyEvhData with
        Name := evhNodeName, VHParentName := parent.data.Name, Tenant := GetTenant,
        EVHParent := false, EvhHostName := host,
        ServiceMetadata := { ServiceMetadataObj.empty with
          NamespaceIngressName := hostMap1, Namespace := ns, HostNames := [host] } }
      let base1 :=
        if GetSEGName != DEFAULT_SE_GROUP then { base0 with ServiceEngineGroup := GetSEGName }
        else base0
      AviEvhVsNode.mk base1
    | some ev =>
      ev.upd fun d =>
        { d with ServiceMetadata := { d.ServiceMetadata with
            NamespaceIngressName := hostMap1, Namespace := ns, HostNames := [host] } }
  let child1 := child0.upd fun d =>
    { d with
      ServiceEngineGroup :=
        if GetSEGName != DEFAULT_SE_GROUP then GetSEGName else d.ServiceEngineGroup
      VrfContext := GetVrf }
  let parent0 :=
    match existing with
    | some _ => setFirstEvhChild parent evhNodeName child1
    | none => parent
  let pg := BuildPolicyPGPoolsForEVH env.populateServers (env.fqdnHTTPRules host)
    env.httpRuleGet parent0 child1 ns ingName host paths
  let child2 := pg.2
  let parentB :=
    match existing with
    | some _ => setFirstEvhChild pg.1 evhNodeName child2
    | none => pg.1.upd fun d => { d with EvhNodes := d.EvhNodes ++ [child2] }
  let parentC := RemoveRedirectHTTPPolicyInModelForEvh parentB host
  let parentD :=
    if tlssetting.redirect then BuildPolicyRedirectForVSForEvh parentC host else parentC
  let child3 := BuildL7HostRule (env.hostRule host) child2
  let parentE := setFirstEvhChild parentD evhNodeName child3
  { parent := parentE, hostMap := hostMap1, secretToIng := secretToIng, certsBuilt := true }

/-- Invariant tying the redirect policies of a parent's policy list to the
spec-side hosts array: either no policy with the redirect name exists and the
hosts array is empty, or exactly one exists, its single redirect-ports entry
carries exactly the hosts array, and its stored checksum is nonzero. -/
def RedirectPolicyInv (pn : String) (refs : List AviHttpPolicySetNode)
    (hosts : List String) : Prop :=
  (hosts = [] ∧ pnPolicies pn refs = []) ∨
  (hosts ≠ [] ∧ ∃ p, pnPolicies pn refs = [p] ∧
    p.RedirectPorts =
      [{ Hosts := hosts, RedirectPort := 443, StatusCode := STATUS_REDIRECT, VsPort := 80 }] ∧
    p.CloudConfigCksum ≠ 0)

/-! Theorems. General helper lemmas first, then one theorem per claim. -/

/-- Reading the field record of a constructed node. -/
@[simp]
theorem AviEvhVsNode.data_mk (d : EvhData AviEvhVsNode) : (AviEvhVsNode.mk d).data = d := rfl

/-- Reading the field record after a functional update. -/
@[simp]
theorem AviEvhVsNode.upd_data (n : AviEvhVsNode) (f : EvhData AviEvhVsNode → EvhData AviEvhVsNode) :
    (n.upd f).data = f n.data := by
  cases n
  rfl

/-- Common shape of the four replace-by-name loops: the first element whose
name matches the new node's is removed and the new node appended; with no
match the new node is appended. -/
theorem replaceByName_eq {α : Type} (name : α → String) (rep : List α → α → List α)
    (hnil : ∀ x, rep [] x = [x])
    (hcons : ∀ p rest x, rep (p :: rest) x =
      if name p == name x then rest ++ [x] else p :: rep rest x) :
    ∀ (l : List α) (x : α),
      rep l x =
        if l.any (fun p => name p == name x) then
          l.eraseP (fun p => name p == name x) ++ [x]
        else l ++ [x]
  | [], x => by simp [hnil]
  | p :: rest, x => by
    rw [hcons]
    by_cases h : (name p == name x) = true
    · simp [h, List.eraseP_cons]
    · simp only [Bool.not_eq_true] at h
      simp [h, List.eraseP_cons, replaceByName_eq name rep hnil hcons rest x]
      split <;> rfl

/-- Behaviour of the `FindAndReplaceEvhInModel` loop: the flag reports a name
match; the list is unchanged when there is no match or when the matched
child's checksum equals the new child's, and otherwise the first match is
removed and the new child appended. -/
theorem findAndReplaceEvhList_eq (cur : AviEvhVsNode) :
    ∀ l : List AviEvhVsNode,
      (findAndReplaceEvhList l cur).1 = l.any (fun m => m.data.Name == cur.data.Name) ∧
      (findAndReplaceEvhList l cur).2 =
        match l.find? (fun m => m.data.Name == cur.data.Name) with
        | none => l
        | some m =>
          if m.GetCheckSum == cur.GetCheckSum then l
          else l.eraseP (fun m2 => m2.data.Name == cur.data.Name) ++ [cur]
  | [] => by simp [findAndReplaceEvhList]
  | m :: rest => by
    have ih := findAndReplaceEvhList_eq cur rest
    by_cases h : (m.data.Name == cur.data.Name) = true
    · by_cases hc : (m.GetCheckSum == cur.GetCheckSum) = true
      · simp [findAndReplaceEvhList, h, hc, List.find?_cons, List.eraseP_cons]
      · simp only [Bool.not_eq_true] at hc
        simp [findAndReplaceEvhList, h, hc, List.find?_cons, List.eraseP_cons]
    · simp only [Bool.not_eq_true] at h
      simp only [findAndReplaceEvhList, h, List.find?_cons, List.eraseP_cons, List.any_cons,
        Bool.false_or, if_neg, Bool.false_eq_true, not_false_eq_true, ite_false]
      refine ⟨ih.1, ?_⟩
      rw [ih.2]
      cases rest.find? (fun m2 => m2.data.Name == cur.data.Name) with
      | none => simp
      | some m2 =>
        by_cases hc2 : (m2.GetCheckSum == cur.GetCheckSum) = true <;> simp [hc2]

/-- Claim C9: the four child-collection replace operations remove the first
element bearing the new node's name and append the new node at the tail
(appending when nothing matches); `FindAndReplaceEvhInModel`, however, moves
the matched child to the tail only when its checksum differs, leaves the list
unchanged when the checksums are equal, and on no match changes nothing and
reports `false` so that the caller appends. -/
theorem C9_replace_semantics :
    (∀ (o : AviEvhVsNode) (x : AviPoolNode),
        (ReplaceEvhPoolInEVHNode o x).data.PoolRefs =
          if o.data.PoolRefs.any (fun p => p.Name == x.Name) then
            o.data.PoolRefs.eraseP (fun p => p.Name == x.Name) ++ [x]
          else o.data.PoolRefs ++ [x]) ∧
    (∀ (o : AviEvhVsNode) (x : AviPoolGroupNode),
        (ReplaceEvhPGInEVHNode o x).data.PoolGroupRefs =
          if o.data.PoolGroupRefs.any (fun p => p.Name == x.Name) then
            o.data.PoolGroupRefs.eraseP (fun p => p.Name == x.Name) ++ [x]
          else o.data.PoolGroupRefs ++ [x]) ∧
    (∀ (o : AviEvhVsNode) (x : AviTLSKeyCertNode),
        (ReplaceEvhSSLRefInEVHNode o x).data.SSLKeyCertRefs =
          if o.data.SSLKeyCertRefs.any (fun p => p.Name == x.Name) then
            o.data.SSLKeyCertRefs.eraseP (fun p => p.Name == x.Name) ++ [x]
          else o.data.SSLKeyCertRefs ++ [x]) ∧
    (∀ (o : AviEvhVsNode) (x : AviHttpPolicySetNode),
        (ReplaceHTTPRefInNodeForEvh o x).data.HttpPolicyRefs =
          if o.data.HttpPolicyRefs.any (fun p => p.Name == x.Name) then
            o.data.HttpPolicyRefs.eraseP (fun p => p.Name == x.Name) ++ [x]
          else o.data.HttpPolicyRefs ++ [x]) ∧
    (∀ (cur parent : AviEvhVsNode),
        (FindAndReplaceEvhInModel cur parent).1 =
          parent.data.EvhNodes.any (fun m => m.data.Name == cur.data.Name) ∧
        (FindAndReplaceEvhInModel cur parent).2.data.EvhNodes =
          match parent.data.EvhNodes.find? (fun m => m.data.Name == cur.data.Name) with
          | none => parent.data.EvhNodes
          | some m =>
            if m.GetCheckSum == cur.GetCheckSum then parent.data.EvhNodes
            else parent.data.EvhNodes.eraseP (fun m2 => m2.data.Name == cur.data.Name) ++ [cur]) := by
  refine ⟨?_, ?_, ?_, ?_, ?_⟩
  · intro o x
    simp only [ReplaceEvhPoolInEVHNode, AviEvhVsNode.upd_data]
    exact replaceByName_eq AviPoolNode.Name replacePoolList (fun _ => rfl)
      (fun _ _ _ => rfl) o.data.PoolRefs x
  · intro o x
    simp only [ReplaceEvhPGInEVHNode, AviEvhVsNode.upd_data]
    exact replaceByName_eq AviPoolGroupNode.Name replacePGList (fun _ => rfl)
      (fun _ _ _ => rfl) o.data.PoolGroupRefs x
  · intro o x
    simp only [ReplaceEvhSSLRefInEVHNode, AviEvhVsNode.upd_data]
    exact replaceByName_eq AviTLSKeyCertNode.Name replaceTLSList (fun _ => rfl)
      (fun _ _ _ => rfl) o.data.SSLKeyCertRefs x
  · intro o x
    simp only [ReplaceHTTPRefInNodeForEvh, AviEvhVsNode.upd_data]
    exact replaceByName_eq AviHttpPolicySetNode.Name replaceHttpPolList (fun _ => rfl)
      (fun _ _ _ => rfl) o.data.HttpPolicyRefs x
  · intro cur parent
    have h := findAndReplaceEvhList_eq cur parent.data.EvhNodes
    exact ⟨h.1, by simp only [FindAndReplaceEvhInModel, AviEvhVsNode.upd_data]; exact h.2⟩

/-- Claim C9, counterexample: with no matching child,
`FindAndReplaceEvhInModel` does not append the new node (the claim says the
new node is appended): the parent's child list stays empty and the operation
reports `false`. -/
theorem C9_counterexample :
    (FindAndReplaceEvhInModel
        (AviEvhVsNode.mk { emptyEvhData with Name := "cluster--ing1-default-foo.com" })
        (AviEvhVsNode.mk { emptyEvhData with
          Name := "cluster--Shared-L7-EVH-0" })).2.data.EvhNodes = [] ∧
    (FindAndReplaceEvhInModel
        (AviEvhVsNode.mk { emptyEvhData with Name := "cluster--ing1-default-foo.com" })
        (AviEvhVsNode.mk { emptyEvhData with
          Name := "cluster--Shared-L7-EVH-0" })).1 = false :=
  ⟨rfl, rfl⟩

/-- Claim C1, counterexample: on a child VS carrying a previously applied WAF
override, running the overlay with the host rule now Rejected leaves the
override in place (early return), while building without the rule (the delete
case) clears it — so the node produced under a rejected CRD is not identical
to the node built without that CRD, and the prior overrides are not undone. -/
theorem C1_counterexample :
    (BuildL7HostRule
        (HostRuleLookup.found
          { Namespace := "default", Name := "hr1", Status := "Rejected",
            SSLKeyCertificateName := "", SSLProfile := "", WAFPolicy := "BADREF",
            ApplicationProfile := "", ErrorPageProfile := "", AnalyticsProfile := "",
            HTTPPolicySets := [], HTTPPolicyOverwrite := false, Datascripts := [],
            EnableVirtualHost := none })
        (AviEvhVsNode.mk { emptyEvhData with
          WafPolicyRef := "/api/wafpolicy?name=waf1",
          ServiceMetadata := { ServiceMetadataObj.empty with
            CRDStatus := ⟨"HostRule", "default/hr1", "ACTIVE"⟩ } })).data.WafPolicyRef = "/api/wafpolicy?name=waf1" ∧
    (BuildL7HostRule HostRuleLookup.noMapping
        (AviEvhVsNode.mk { emptyEvhData with
          WafPolicyRef := "/api/wafpolicy?name=waf1",
          ServiceMetadata := { ServiceMetadataObj.empty with
            CRDStatus := ⟨"HostRule", "default/hr1", "ACTIVE"⟩ } })).data.WafPolicyRef = "" :=
  ⟨rfl, rfl⟩

/-- Claim C1, amended: a rejected host rule is ignored by the overlay, which
returns the child VS exactly as it was — retaining any previously applied
overrides rather than undoing them — and `BuildPoolHTTPRule` applies nothing
when every retrievable HTTP rule for the host is rejected. -/
theorem C1_rejected_crd_ignored :
    (∀ (hr : HostRuleCRD) (node : AviEvhVsNode),
        hr.Status = StatusRejected → BuildL7HostRule (.found hr) node = node) ∧
    (∀ (pathRules : List (String × String)) (ruleGet : String → Option HTTPRuleCRD)
        (host ingName ns : String) (node : AviEvhVsNode) (sni : Bool),
        (∀ r obj, ruleGet r = some obj → obj.Status = StatusRejected) →
        BuildPoolHTTPRule (some pathRules) ruleGet host ingName ns node sni = node) := by
  constructor
  · intro hr node h
    simp [BuildL7HostRule, h]
  · intro pathRules ruleGet host ingName ns node sni hrej
    have hmap : ∀ (rules : List String),
        rules.foldl
          (fun acc httprule =>
            match ruleGet httprule with
            | none => acc
            | some obj =>
              if obj.Status == StatusRejected then acc
              else obj.Paths.foldl (fun acc2 p => assocPut acc2 (httprule ++ p.Target) p) acc)
          [] = [] := by
      intro rules
      induction rules with
      | nil => rfl
      | cons r rest ih =>
        simp only [List.foldl_cons]
        cases hr : ruleGet r with
        | none => exact ih
        | some obj =>
          have hstat := hrej r obj hr
          simp only [hstat, beq_self_eq_true, if_true]
          exact ih
    simp only [BuildPoolHTTPRule, hmap]
    induction pathRules generalizing node with
    | nil => rfl
    | cons pr rest ih =>
      simp only [List.foldl_cons]
      have hfind : assocFind [] (pr.2 ++ pr.1) = none := rfl
      rw [hfind]
      exact ih node

/-- Claim C1, witness for the amended theorem: a concrete rejected host rule
leaves a concrete child VS untouched. -/
theorem C1_rejected_crd_ignored_witness :
    BuildL7HostRule
      (.found
        { Namespace := "default", Name := "hr1", Status := "Rejected",
          SSLKeyCertificateName := "", SSLProfile := "", WAFPolicy := "BADREF",
          ApplicationProfile := "", ErrorPageProfile := "", AnalyticsProfile := "",
          HTTPPolicySets := [], HTTPPolicyOverwrite := false, Datascripts := [],
          EnableVirtualHost := none })
      (AviEvhVsNode.mk emptyEvhData) = AviEvhVsNode.mk emptyEvhData :=
  C1_rejected_crd_ignored.1
    { Namespace := "default", Name := "hr1", Status := "Rejected",
      SSLKeyCertificateName := "", SSLProfile := "", WAFPolicy := "BADREF",
      ApplicationProfile := "", ErrorPageProfile := "", AnalyticsProfile := "",
      HTTPPolicySets := [], HTTPPolicyOverwrite := false, Datascripts := [],
      EnableVirtualHost := none }
    (AviEvhVsNode.mk emptyEvhData) rfl

/-- Claim C8: with no retrievable host rule (the delete case), the overlay
clears every host-rule ref field of the child VS, flips the service-metadata
CRD status from ACTIVE to INACTIVE while preserving its value and type, and
leaves the pools, pool groups, locally built SSL key/cert refs, auto-built
HTTP policy refs and the rest of the node unchanged. -/
theorem C8_hostrule_delete (node : AviEvhVsNode)
    (hact : node.data.ServiceMetadata.CRDStatus.Status = "ACTIVE")
    (hval : node.data.ServiceMetadata.CRDStatus.Value ≠ "") :
    (BuildL7HostRule .noMapping node).data.SSLKeyCertAviRef = "" ∧
    (BuildL7HostRule .noMapping node).data.WafPolicyRef = "" ∧
    (BuildL7HostRule .noMapping node).data.HttpPolicySetRefs = [] ∧
    (BuildL7HostRule .noMapping node).data.AppProfileRef = "" ∧
    (BuildL7HostRule .noMapping node).data.AnalyticsProfileRef = "" ∧
    (BuildL7HostRule .noMapping node).data.ErrorPageProfileRef = "" ∧
    (BuildL7HostRule .noMapping node).data.SSLProfileRef = "" ∧
    (BuildL7HostRule .noMapping node).data.VsDatascriptRefs = [] ∧
    (BuildL7HostRule .noMapping node).data.Enabled = none ∧
    (BuildL7HostRule .noMapping node).data.ServiceMetadata.CRDStatus =
      { CrdType := node.data.ServiceMetadata.CRDStatus.CrdType,
        Value := node.data.ServiceMetadata.CRDStatus.Value, Status := "INACTIVE" } ∧
    (BuildL7HostRule .noMapping node).data.PoolRefs = node.data.PoolRefs ∧
    (BuildL7HostRule .noMapping node).data.PoolGroupRefs = node.data.PoolGroupRefs ∧
    (BuildL7HostRule .noMapping node).data.SSLKeyCertRefs = node.data.SSLKeyCertRefs ∧
    (BuildL7HostRule .noMapping node).data.HttpPolicyRefs = node.data.HttpPolicyRefs ∧
    (BuildL7HostRule .noMapping node).data.Name = node.data.Name ∧
    (BuildL7HostRule .noMapping node).data.EvhNodes = node.data.EvhNodes ∧
    (BuildL7HostRule .noMapping node).data.ServiceMetadata.IngressName =
      node.data.ServiceMetadata.IngressName ∧
    (BuildL7HostRule .noMapping node).data.ServiceMetadata.Namespace =
      node.data.ServiceMetadata.Namespace ∧
    (BuildL7HostRule .noMapping node).data.ServiceMetadata.HostNames =
      node.data.ServiceMetadata.HostNames := by
  have hb : (node.data.ServiceMetadata.CRDStatus.Value != "") = true := by
    simpa [bne_iff_ne] using hval
  simp [BuildL7HostRule, buildL7HostRuleDelete, setL7HostRuleRefs, hb]

/-- Claim C8, witness: the delete case evaluated on a concrete ACTIVE child. -/
theorem C8_hostrule_delete_witness :
    (BuildL7HostRule .noMapping
        (AviEvhVsNode.mk { emptyEvhData with
          WafPolicyRef := "/api/wafpolicy?name=waf1",
          ServiceMetadata := { ServiceMetadataObj.empty with
            CRDStatus := ⟨"HostRule", "default/hr1", "ACTIVE"⟩ } })).data.WafPolicyRef = "" ∧
    (BuildL7HostRule .noMapping
        (AviEvhVsNode.mk { emptyEvhData with
          WafPolicyRef := "/api/wafpolicy?name=waf1",
          ServiceMetadata := { ServiceMetadataObj.empty with
            CRDStatus := ⟨"HostRule", "default/hr1", "ACTIVE"⟩ } })).data.ServiceMetadata.CRDStatus =
      { CrdType := "HostRule", Value := "default/hr1", Status := "INACTIVE" } :=
  ⟨(C8_hostrule_delete
      (AviEvhVsNode.mk { emptyEvhData with
        WafPolicyRef := "/api/wafpolicy?name=waf1",
        ServiceMetadata := { ServiceMetadataObj.empty with
          CRDStatus := ⟨"HostRule", "default/hr1", "ACTIVE"⟩ } }) rfl (by decide)).2.1,
   (C8_hostrule_delete
      (AviEvhVsNode.mk { emptyEvhData with
        WafPolicyRef := "/api/wafpolicy?name=waf1",
        ServiceMetadata := { ServiceMetadataObj.empty with
          CRDStatus := ⟨"HostRule", "default/hr1", "ACTIVE"⟩ } }) rfl (by decide)).2.2.2.2.2.2.2.2.2.1⟩

/-- Claim C5, counterexample: with shard size 0 the entry point does return
before touching any graph model, but it has already mutated state for the
event — the hosts map gains the host's entry — refuting "skips the event
without mutating any state". -/
theorem C5_counterexample :
    DeriveHostNameShardVSForEvh "foo.com" 0 = "" ∧
    (processInsecureHostForEVH
        ⟨fun _ _ => none, fun _ => .noMapping, fun _ => none, fun _ => none, fun _ _ => none⟩
        (fun a _ => a) 0 none "ing1" "default" "foo.com"
        [{ Path := "/", PathType := .prefixType, ServiceName := "avisvc",
           PortName := "http", weight := 100 }]
        ⟨[], [], []⟩).hostsMap ≠ [] := by
  constructor
  · rfl
  · decide

/-- Claim C5, amended: the shard derivation is a pure function of the host
name and the configured shard size; size 0 reports unshardable (the empty
string) and the insecure entry point then returns without touching any graph
model (the stored-host and hosts-map bookkeeping for the event has, however,
already been updated); a nonzero size yields
`namePrefix + ShardVSPrefix + "-EVH-" + (hash of hostname mod shard size)`. -/
theorem C5_shard_derivation :
    (∀ h : String, DeriveHostNameShardVSForEvh h 0 = "") ∧
    (∀ (h : String) (n : Nat), n ≠ 0 →
        DeriveHostNameShardVSForEvh h n = shardSpecName h n) ∧
    (∀ (env : BuildEnv)
        (diff : List (String × List String) → List IngressHostPathSvc →
          List (String × List String))
        (subDomain : Option String) (ingName ns host : String)
        (paths : List IngressHostPathSvc) (st : InsecureHostState),
        (processInsecureHostForEVH env diff 0 subDomain ingName ns host paths st).graphs =
          st.graphs) := by
  refine ⟨fun h => rfl, ?_, ?_⟩
  · intro h n hn
    have : (n != 0) = true := by simpa [bne_iff_ne] using hn
    simp [DeriveHostNameShardVSForEvh, shardSpecName, this, Bkt]
  · intro env diff subDomain ingName ns host paths st
    simp [processInsecureHostForEVH, DeriveHostNameShardVSForEvh]

/-- Claim C5, witness: the shard formula evaluated at a concrete host and
shard size 8, and the unshardable case at size 0. -/
theorem C5_shard_derivation_witness :
    DeriveHostNameShardVSForEvh "foo.com" 8 = shardSpecName "foo.com" 8 ∧
    DeriveHostNameShardVSForEvh "foo.com" 0 = "" :=
  ⟨C5_shard_derivation.2.1 "foo.com" 8 (by decide), C5_shard_derivation.1 "foo.com"⟩

/-- Claim C7, counterexample: two HTTP-rule paths of one rule both match the
same pool (prefix regex); the first assigns a custom-header consistent hash
with host header "myheader", the second switches the hash kind to source-IP
but the code never clears the host-header field — the final pool carries a
non-custom hash kind together with a non-empty host header, refuting "for any
other hash kind, the pool's host-header field must be (and remain) empty". -/
theorem C7_counterexample :
    ((BuildPoolHTTPRule
        (some [("/", "default/rr1"), ("/foo", "default/rr1")])
        (fun r =>
          if r == "default/rr1" then
            some
              { Status := "Accepted",
                Paths :=
                  [{ Target := "/", TLS := ⟨"", "", ""⟩, HealthMonitors := [],
                     LoadBalancerPolicy :=
                       ⟨LB_ALGORITHM_CONSISTENT_HASH,
                        LB_ALGORITHM_CONSISTENT_HASH_CUSTOM_HEADER, "myheader"⟩ },
                   { Target := "/foo", TLS := ⟨"", "", ""⟩, HealthMonitors := [],
                     LoadBalancerPolicy :=
                       ⟨LB_ALGORITHM_CONSISTENT_HASH,
                        "LB_ALGORITHM_CONSISTENT_HASH_SOURCE_IP_ADDRESS", ""⟩ }] }
          else none)
        "foo.com" "ing1" "default"
        (AviEvhVsNode.mk { emptyEvhData with
          PoolRefs :=
            [{ Name := "cluster--foo.com_foo-default-ing1", PortName := "", Tenant := "",
               VrfContext := "", IngressName := "", ServiceMetadata := ServiceMetadataObj.empty,
               Servers := [], SniEnabled := false, SslProfileRef := "", PkiProfile := none,
               HealthMonitors := [], LbAlgorithm := "", LbAlgorithmHash := "",
               LbAlgoHostHeader := "" }] })
        false).data.PoolRefs.map (fun p => (p.LbAlgorithmHash, p.LbAlgoHostHeader))) =
      [("LB_ALGORITHM_CONSISTENT_HASH_SOURCE_IP_ADDRESS", "myheader")] ∧
    "LB_ALGORITHM_CONSISTENT_HASH_SOURCE_IP_ADDRESS" ≠
      LB_ALGORITHM_CONSISTENT_HASH_CUSTOM_HEADER ∧
    "myheader" ≠ "" := by
  refine ⟨by decide, by decide, by decide⟩

/-- Claim C7, amended: for a pool matched by an HTTP-rule path whose LB
algorithm is consistent hash, the hash kind is always assigned; the host
header is assigned only for CONSISTENT_HASH_CUSTOM_HEADER with a non-empty
hostHeader, and in every other case (custom header with empty hostHeader, or
any other hash kind) the pool's host-header field is left unchanged rather
than cleared — it ends empty only if it was empty before. -/
theorem C7_lb_host_header (hrp : HTTPRulePath) (rule : String) (pool : AviPoolNode)
    (halg : hrp.LoadBalancerPolicy.Algorithm = LB_ALGORITHM_CONSISTENT_HASH) :
    (applyHTTPRulePathToPool hrp rule pool).LbAlgorithmHash =
      hrp.LoadBalancerPolicy.HashAlgo ∧
    (hrp.LoadBalancerPolicy.HashAlgo = LB_ALGORITHM_CONSISTENT_HASH_CUSTOM_HEADER →
      hrp.LoadBalancerPolicy.HostHeader ≠ "" →
      (applyHTTPRulePathToPool hrp rule pool).LbAlgoHostHeader =
        hrp.LoadBalancerPolicy.HostHeader) ∧
    (hrp.LoadBalancerPolicy.HashAlgo = LB_ALGORITHM_CONSISTENT_HASH_CUSTOM_HEADER →
      hrp.LoadBalancerPolicy.HostHeader = "" →
      (applyHTTPRulePathToPool hrp rule pool).LbAlgoHostHeader = pool.LbAlgoHostHeader) ∧
    (hrp.LoadBalancerPolicy.HashAlgo ≠ LB_ALGORITHM_CONSISTENT_HASH_CUSTOM_HEADER →
      (applyHTTPRulePathToPool hrp rule pool).LbAlgoHostHeader = pool.LbAlgoHostHeader) := by
  have halgb : (hrp.LoadBalancerPolicy.Algorithm == LB_ALGORITHM_CONSISTENT_HASH) = true := by
    simp [halg]
  refine ⟨?_, ?_, ?_, ?_⟩
  · simp only [applyHTTPRulePathToPool, halgb]
    split_ifs <;> simp_all
  · intro hcust hne
    simp only [applyHTTPRulePathToPool, halgb]
    split_ifs <;> simp_all
  · intro hcust he
    simp only [applyHTTPRulePathToPool, halgb]
    split_ifs <;> simp_all
  · intro hncust
    simp only [applyHTTPRulePathToPool, halgb]
    split_ifs <;> simp_all

/-- Claim C7, witness: the custom-header assignment evaluated on a concrete
rule path and pool. -/
theorem C7_lb_host_header_witness :
    (applyHTTPRulePathToPool
        { Target := "/", TLS := ⟨"", "", ""⟩, HealthMonitors := [],
          LoadBalancerPolicy :=
            ⟨LB_ALGORITHM_CONSISTENT_HASH, LB_ALGORITHM_CONSISTENT_HASH_CUSTOM_HEADER,
             "myheader"⟩ }
        "default/rr1"
        { Name := "cluster--foo.com_foo-default-ing1", PortName := "", Tenant := "",
          VrfContext := "", IngressName := "", ServiceMetadata := ServiceMetadataObj.empty,
          Servers := [], SniEnabled := false, SslProfileRef := "", PkiProfile := none,
          HealthMonitors := [], LbAlgorithm := "", LbAlgorithmHash := "",
          LbAlgoHostHeader := "" }).LbAlgoHostHeader = "myheader" :=
  (C7_lb_host_header
      { Target := "/", TLS := ⟨"", "", ""⟩, HealthMonitors := [],
        LoadBalancerPolicy :=
          ⟨LB_ALGORITHM_CONSISTENT_HASH, LB_ALGORITHM_CONSISTENT_HASH_CUSTOM_HEADER,
           "myheader"⟩ }
      "default/rr1"
      { Name := "cluster--foo.com_foo-default-ing1", PortName := "", Tenant := "",
        VrfContext := "", IngressName := "", ServiceMetadata := ServiceMetadataObj.empty,
        Servers := [], SniEnabled := false, SslProfileRef := "", PkiProfile := none,
        HealthMonitors := [], LbAlgorithm := "", LbAlgorithmHash := "",
        LbAlgoHostHeader := "" } rfl).2.1 rfl (by decide)




/-- Filtering for the redirect name distributes over cons. -/
theorem pnPolicies_cons (pn : String) (q : AviHttpPolicySetNode)
    (rest : List AviHttpPolicySetNode) :
    pnPolicies pn (q :: rest) =
      if (q.Name == pn) = true then q :: pnPolicies pn rest else pnPolicies pn rest := by
  simp [pnPolicies, List.filter_cons]

/-- The add loop finds nothing when no policy bears the redirect name. -/
theorem findAndReplaceRedirectList_empty (pn h : String) :
    ∀ refs : List AviHttpPolicySetNode, pnPolicies pn refs = [] →
      findAndReplaceRedirectList pn 0 h refs = (false, refs)
  | [], _ => rfl
  | q :: rest, hq => by
    rw [pnPolicies_cons] at hq
    by_cases hname : (q.Name == pn) = true
    · simp [hname] at hq
    · simp only [Bool.not_eq_true] at hname
      simp only [hname, Bool.false_eq_true, if_false] at hq
      have ih := findAndReplaceRedirectList_empty pn h rest hq
      simp [findAndReplaceRedirectList, hname, ih]

/-- The add loop on a list holding exactly one redirect-named policy with a
nonzero stored checksum: it reports the match, appends the host when absent,
and preserves the policy's checksum and redirect-port shape. -/
theorem findAndReplaceRedirectList_single (pn h : String) (hosts : List String) :
    ∀ (refs : List AviHttpPolicySetNode) (p : AviHttpPolicySetNode),
      pnPolicies pn refs = [p] → p.CloudConfigCksum ≠ 0 →
      p.RedirectPorts =
        [{ Hosts := hosts, RedirectPort := 443, StatusCode := STATUS_REDIRECT, VsPort := 80 }] →
      (findAndReplaceRedirectList pn 0 h refs).1 = true ∧
      ∃ p', pnPolicies pn (findAndReplaceRedirectList pn 0 h refs).2 = [p'] ∧
        p'.CloudConfigCksum = p.CloudConfigCksum ∧
        p'.RedirectPorts =
          [{ Hosts := if hosts.contains h then hosts else hosts ++ [h],
             RedirectPort := 443, StatusCode := STATUS_REDIRECT, VsPort := 80 }]
  | [], p, hp, _, _ => by simp [pnPolicies] at hp
  | q :: rest, p, hp, hcks, hrp => by
    rw [pnPolicies_cons] at hp
    by_cases hname : (q.Name == pn) = true
    · simp only [hname, if_true, List.cons.injEq] at hp
      obtain ⟨hqp, hrest⟩ := hp
      rw [← hqp] at hcks hrp ⊢
      have hckb : (q.CloudConfigCksum == 0) = false := by
        simpa using hcks
      have hhosts : policyRedirectHosts q = hosts := by
        simp [policyRedirectHosts, hrp]
      by_cases hmem : (hosts.contains h) = true
      · have hm : h ∈ hosts := by simpa using hmem
        refine ⟨?_, q, ?_, rfl, ?_⟩
        · simp [findAndReplaceRedirectList, hname, hckb, HasElem, hhosts, hmem, hm]
        · simp [findAndReplaceRedirectList, hname, hckb, HasElem, hhosts, hmem, hm,
            pnPolicies_cons, hrest]
        · simp [hrp, hm]
      · have hmem' : (hosts.contains h) = false := by simpa using hmem
        have hm : ¬ (h ∈ hosts) := by simpa using hmem
        refine ⟨?_, policyWithRedirectHosts q (hosts ++ [h]), ?_, rfl, ?_⟩
        · simp [findAndReplaceRedirectList, hname, hckb, HasElem, hhosts, hmem', hm]
        · have hname' : ((policyWithRedirectHosts q (hosts ++ [h])).Name == pn) = true := by
            simpa [policyWithRedirectHosts] using hname
          simp [findAndReplaceRedirectList, hname, hckb, HasElem, hhosts, hmem', hm,
            pnPolicies_cons, hname', hrest]
        · simp [policyWithRedirectHosts, hrp, hm]
    · simp only [Bool.not_eq_true] at hname
      simp only [hname, Bool.false_eq_true, if_false] at hp
      have ih := findAndReplaceRedirectList_single pn h hosts rest p hp hcks hrp
      refine ⟨?_, ?_⟩
      · simp [findAndReplaceRedirectList, hname, ih.1]
      · obtain ⟨p', hp', hc', hr'⟩ := ih.2
        exact ⟨p', by simp [findAndReplaceRedirectList, hname, pnPolicies_cons, hp'], hc', hr'⟩

/-- The remove loop leaves a list with no redirect-named policy unchanged. -/
theorem removeRedirectList_empty (pn h : String) :
    ∀ refs : List AviHttpPolicySetNode, pnPolicies pn refs = [] →
      removeRedirectList pn h refs = refs
  | [], _ => rfl
  | q :: rest, hq => by
    rw [pnPolicies_cons] at hq
    by_cases hname : (q.Name == pn) = true
    · simp [hname] at hq
    · simp only [Bool.not_eq_true] at hname
      simp only [hname, Bool.false_eq_true, if_false] at hq
      simp [removeRedirectList, hname, removeRedirectList_empty pn h rest hq]

/-- The remove loop on a list holding exactly one redirect-named policy:
the host is erased from its hosts array and the policy is dropped exactly
when that array becomes empty. -/
theorem removeRedirectList_single (pn h : String) (hosts : List String) :
    ∀ (refs : List AviHttpPolicySetNode) (p : AviHttpPolicySetNode),
      pnPolicies pn refs = [p] →
      p.RedirectPorts =
        [{ Hosts := hosts, RedirectPort := 443, StatusCode := STATUS_REDIRECT, VsPort := 80 }] →
      (hosts.erase h = [] → pnPolicies pn (removeRedirectList pn h refs) = []) ∧
      (hosts.erase h ≠ [] →
        ∃ p', pnPolicies pn (removeRedirectList pn h refs) = [p'] ∧
          p'.CloudConfigCksum = p.CloudConfigCksum ∧
          p'.RedirectPorts =
            [{ Hosts := hosts.erase h, RedirectPort := 443, StatusCode := STATUS_REDIRECT,
               VsPort := 80 }])
  | [], p, hp, _ => by simp [pnPolicies] at hp
  | q :: rest, p, hp, hrp => by
    rw [pnPolicies_cons] at hp
    by_cases hname : (q.Name == pn) = true
    · simp only [hname, if_true, List.cons.injEq] at hp
      obtain ⟨hqp, hrest⟩ := hp
      rw [← hqp] at hrp ⊢
      have hhosts : policyRedirectHosts q = hosts := by
        simp [policyRedirectHosts, hrp]
      constructor
      · intro hnil
        have hb : ((RemoveElem (policyRedirectHosts q) h).isEmpty) = true := by
          simp [RemoveElem, hhosts, hnil]
        simp [removeRedirectList, hname, hb, removeRedirectList_empty pn h rest hrest, hrest]
      · intro hne
        have hb : ((RemoveElem (policyRedirectHosts q) h).isEmpty) = false := by
          cases hE : hosts.erase h with
          | nil => exact absurd hE hne
          | cons a t => simp [RemoveElem, hhosts, hE]
        have hname' :
            ((policyWithRedirectHosts q (RemoveElem (policyRedirectHosts q) h)).Name == pn)
              = true := by
          simpa [policyWithRedirectHosts] using hname
        refine ⟨policyWithRedirectHosts q (RemoveElem (policyRedirectHosts q) h), ?_, rfl, ?_⟩
        · simp [removeRedirectList, hname, hb, pnPolicies_cons, hname',
            removeRedirectList_empty pn h rest hrest, hrest]
        · simp [policyWithRedirectHosts, hrp, RemoveElem, hhosts]
    · simp only [Bool.not_eq_true] at hname
      simp only [hname, Bool.false_eq_true, if_false] at hp
      have ih := removeRedirectList_single pn h hosts rest p hp hrp
      constructor
      · intro hnil
        simp [removeRedirectList, hname, pnPolicies_cons, ih.1 hnil]
      · intro hne
        obtain ⟨p', hp', hc', hr'⟩ := ih.2 hne
        exact ⟨p', by simp [removeRedirectList, hname, pnPolicies_cons, hp'], hc', hr'⟩


/-- One redirect event preserves the parent's name and carries the redirect
invariant from the current hosts array to the spec-stepped one. -/
theorem redirect_op_inv (nm : String) (op : RedirectOp) (n : AviEvhVsNode)
    (hosts : List String) (hn : n.data.Name = nm)
    (hinv : RedirectPolicyInv (GetL7HttpRedirPolicy nm) n.data.HttpPolicyRefs hosts)
    (hnz : ∀ h, op = .add h →
      (freshRedirectPolicy (GetL7HttpRedirPolicy nm) h).contentCheckSum ≠ 0) :
    (applyRedirectOp n op).data.Name = nm ∧
    RedirectPolicyInv (GetL7HttpRedirPolicy nm) (applyRedirectOp n op).data.HttpPolicyRefs
      (specHostStep hosts op) := by
  cases op with
  | add h =>
    have hck := hnz h rfl
    rcases hinv with ⟨hsp, hpn⟩ | ⟨hsp, p, hpn, hports, hcks⟩
    · have hf := findAndReplaceRedirectList_empty (GetL7HttpRedirPolicy nm) h
        n.data.HttpPolicyRefs hpn
      constructor
      · simp [applyRedirectOp, BuildPolicyRedirectForVSForEvh,
          FindAndReplaceRedirectHTTPPolicyInModelforEvh, hn, hf]
      · right
        refine ⟨by simp [specHostStep, hsp], (freshRedirectPolicy (GetL7HttpRedirPolicy nm) h).CalculateCheckSum, ?_, ?_, ?_⟩
        · simp [applyRedirectOp, BuildPolicyRedirectForVSForEvh,
            FindAndReplaceRedirectHTTPPolicyInModelforEvh, hn, hf, pnPolicies,
            List.filter_append, AviHttpPolicySetNode.CalculateCheckSum, freshRedirectPolicy]
          simpa [pnPolicies] using hpn
        · simp [AviHttpPolicySetNode.CalculateCheckSum, freshRedirectPolicy, specHostStep, hsp]
        · simpa [AviHttpPolicySetNode.CalculateCheckSum, freshRedirectPolicy] using hck
    · have hf := findAndReplaceRedirectList_single (GetL7HttpRedirPolicy nm) h hosts
        n.data.HttpPolicyRefs p hpn hcks hports
      obtain ⟨p', hp', hc', hr'⟩ := hf.2
      constructor
      · simp [applyRedirectOp, BuildPolicyRedirectForVSForEvh,
          FindAndReplaceRedirectHTTPPolicyInModelforEvh, hn, hf.1]
      · right
        refine ⟨?_, p', ?_, ?_, by rw [hc']; exact hcks⟩
        · by_cases hmem : (hosts.contains h) = true
          · have hm : h ∈ hosts := by simpa using hmem
            simp [specHostStep, hmem, hm, hsp]
          · have hm : ¬ (h ∈ hosts) := by simpa using hmem
            simp [specHostStep, hmem, hm]
        · simpa [applyRedirectOp, BuildPolicyRedirectForVSForEvh,
            FindAndReplaceRedirectHTTPPolicyInModelforEvh, hn, hf.1] using hp'
        · rw [hr']
          by_cases hmem : (hosts.contains h) = true
          · have hm : h ∈ hosts := by simpa using hmem
            simp [specHostStep, hmem, hm]
          · have hm : ¬ (h ∈ hosts) := by simpa using hmem
            simp [specHostStep, hmem, hm]
  | remove h =>
    rcases hinv with ⟨hsp, hpn⟩ | ⟨hsp, p, hpn, hports, hcks⟩
    · have hf := removeRedirectList_empty (GetL7HttpRedirPolicy nm) h
        n.data.HttpPolicyRefs hpn
      refine ⟨by simp [applyRedirectOp, RemoveRedirectHTTPPolicyInModelForEvh, hn], ?_⟩
      left
      refine ⟨by simp [specHostStep, hsp], ?_⟩
      simp [applyRedirectOp, RemoveRedirectHTTPPolicyInModelForEvh, hn, hf, hpn]
    · have hf := removeRedirectList_single (GetL7HttpRedirPolicy nm) h hosts
        n.data.HttpPolicyRefs p hpn hports
      refine ⟨by simp [applyRedirectOp, RemoveRedirectHTTPPolicyInModelForEvh, hn], ?_⟩
      by_cases hnil : hosts.erase h = []
      · left
        refine ⟨by simp [specHostStep, hnil], ?_⟩
        simpa [applyRedirectOp, RemoveRedirectHTTPPolicyInModelForEvh, hn] using hf.1 hnil
      · obtain ⟨p', hp', hc', hr'⟩ := hf.2 hnil
        right
        refine ⟨by simpa [specHostStep] using hnil, p', ?_, by simpa [specHostStep] using hr',
          by rw [hc']; exact hcks⟩
        simpa [applyRedirectOp, RemoveRedirectHTTPPolicyInModelForEvh, hn] using hp'

/-- Claim C3: starting from a parent with no redirect policy, any sequence of
redirect add/remove events leaves at most one HTTP policy node with the
parent's redirect-policy name; its hosts array is exactly the array obtained
by appending each added host when absent and erasing each removed host, and
the policy node exists exactly while that array is nonempty. The nonzero-
checksum hypothesis reflects that the stored checksum of a created redirect
policy (against which the add loop compares) never collides with the zero
checksum of an uncomputed fresh node. -/
theorem C3_redirect_policy (parent0 : AviEvhVsNode) (ops : List RedirectOp)
    (hstart : pnPolicies (GetL7HttpRedirPolicy parent0.data.Name)
      parent0.data.HttpPolicyRefs = [])
    (hnz : ∀ h, RedirectOp.add h ∈ ops →
      (freshRedirectPolicy (GetL7HttpRedirPolicy parent0.data.Name) h).contentCheckSum ≠ 0) :
    (pnPolicies (GetL7HttpRedirPolicy parent0.data.Name)
        (runRedirectOps parent0 ops).data.HttpPolicyRefs).map policyRedirectHosts =
      if specRedirectHosts ops = [] then [] else [specRedirectHosts ops] := by
  suffices H : ∀ (rest : List RedirectOp) (n : AviEvhVsNode) (hosts : List String),
      n.data.Name = parent0.data.Name →
      RedirectPolicyInv (GetL7HttpRedirPolicy parent0.data.Name)
        n.data.HttpPolicyRefs hosts →
      (∀ h, RedirectOp.add h ∈ rest →
        (freshRedirectPolicy (GetL7HttpRedirPolicy parent0.data.Name) h).contentCheckSum ≠ 0) →
      (rest.foldl applyRedirectOp n).data.Name = parent0.data.Name ∧
      RedirectPolicyInv (GetL7HttpRedirPolicy parent0.data.Name)
        (rest.foldl applyRedirectOp n).data.HttpPolicyRefs
        (rest.foldl specHostStep hosts) by
    have h0 : RedirectPolicyInv (GetL7HttpRedirPolicy parent0.data.Name)
        parent0.data.HttpPolicyRefs [] := Or.inl ⟨rfl, hstart⟩
    have hfin := (H ops parent0 [] rfl h0 hnz).2
    rcases hfin with ⟨hsp, hpn⟩ | ⟨hsp, p, hpn, hports, _⟩
    · simp [runRedirectOps, specRedirectHosts, hsp, hpn]
    · simp [runRedirectOps, specRedirectHosts, hsp, hpn, policyRedirectHosts, hports]
  intro rest
  induction rest with
  | nil => exact fun n hosts hn hinv _ => ⟨hn, hinv⟩
  | cons op rest ih =>
    intro n hosts hn hinv hnzr
    have hstep := redirect_op_inv parent0.data.Name op n hosts hn hinv
      (fun h hop => hnzr h (by simp [hop]))
    simpa using ih (applyRedirectOp n op) (specHostStep hosts op) hstep.1 hstep.2
      (fun h hm => hnzr h (by simp [hm]))

set_option maxRecDepth 10000 in
/-- Claim C3, witness: three concrete redirect events on a fresh shared VS
leave exactly the hosts array the spec predicts. -/
theorem C3_redirect_policy_witness :
    (pnPolicies
        (GetL7HttpRedirPolicy
          (AviEvhVsNode.mk { emptyEvhData with
            Name := "cluster--Shared-L7-EVH-0" }).data.Name)
        (runRedirectOps
          (AviEvhVsNode.mk { emptyEvhData with Name := "cluster--Shared-L7-EVH-0" })
          [.add "foo.com", .add "bar.com", .remove "foo.com"]).data.HttpPolicyRefs).map
      policyRedirectHosts =
      if specRedirectHosts [.add "foo.com", .add "bar.com", .remove "foo.com"] = [] then []
      else [specRedirectHosts [.add "foo.com", .add "bar.com", .remove "foo.com"]] := by
  apply C3_redirect_policy
  · rfl
  · intro h hm
    simp only [List.mem_cons, List.not_mem_nil, or_false] at hm
    rcases hm with hm | hm | hm
    · cases hm
      decide
    · cases hm
      decide
    · cases hm


/-- The accumulated child checksum is the sum of the children's checksums. -/
theorem cksEvhList_eq_sum : ∀ l : List AviEvhVsNode,
    cksEvhList l = (l.map AviEvhVsNode.GetCheckSum).sum
  | [] => rfl
  | c :: cs => by
    rw [cksEvhList, List.map_cons, List.sum_cons, cksEvhList_eq_sum cs]

/-- Two sorted listener lists that are permutations of each other and have
pairwise-distinct names are equal. -/
theorem sortedPortProto_eq :
    ∀ l1 l2 : List AviPortHostProtocol,
      l1.Sorted (fun a b => a.Name ≤ b.Name) →
      l2.Sorted (fun a b => a.Name ≤ b.Name) →
      l1.Perm l2 → (l1.map (fun p => p.Name)).Nodup → l1 = l2
  | [], l2, _, _, hp, _ => hp.nil_eq
  | a :: t1, [], _, _, hp, _ => by simpa using hp.eq_nil
  | a :: t1, b :: t2, hs1, hs2, hp, hnd => by
    have hndparts : (∀ x ∈ t1, ¬x.Name = a.Name) ∧
        (t1.map (fun p => p.Name)).Nodup := by
      simpa using hnd
    by_cases hab : a = b
    · subst hab
      have ht := hp.cons_inv
      rw [sortedPortProto_eq t1 t2 hs1.of_cons hs2.of_cons ht hndparts.2]
    · have hamem : a ∈ b :: t2 := hp.subset (List.mem_cons_self a t1)
      have hbmem : b ∈ a :: t1 := hp.symm.subset (List.mem_cons_self b t2)
      rcases List.mem_cons.mp hamem with hEq | hin2
      · exact absurd hEq hab
      rcases List.mem_cons.mp hbmem with hEq | hin1
      · exact absurd hEq.symm hab
      have hba : b.Name ≤ a.Name := (List.sorted_cons.mp hs2).1 a hin2
      have hab' : a.Name ≤ b.Name := (List.sorted_cons.mp hs1).1 b hin1
      have hnameeq : a.Name = b.Name := le_antisymm hab' hba
      exact absurd hnameeq.symm (hndparts.1 b hin1)

/-- The name-sort of the listener list is invariant under permutations with
pairwise-distinct names. -/
theorem sortPortProto_perm_eq (l1 l2 : List AviPortHostProtocol)
    (hp : l1.Perm l2) (hnd : (l1.map (fun p => p.Name)).Nodup) :
    sortPortProto l1 = sortPortProto l2 := by
  haveI hT : IsTotal AviPortHostProtocol (fun a b => a.Name ≤ b.Name) :=
    ⟨fun a b => le_total a.Name b.Name⟩
  haveI hTr : IsTrans AviPortHostProtocol (fun a b => a.Name ≤ b.Name) :=
    ⟨fun _ _ _ hab hbc => le_trans hab hbc⟩
  have hperm : (sortPortProto l1).Perm (sortPortProto l2) :=
    ((List.perm_insertionSort _ l1).trans hp).trans (List.perm_insertionSort _ l2).symm
  have hndsort : ((sortPortProto l1).map (fun p => p.Name)).Nodup :=
    (((List.perm_insertionSort _ l1).map (fun p => p.Name)).nodup_iff).mpr hnd
  exact sortedPortProto_eq (sortPortProto l1) (sortPortProto l2)
    (List.sorted_insertionSort _ l1) (List.sorted_insertionSort _ l2) hperm hndsort

/-- Claim C2, amended: `CalculateCheckSum` is invariant under permutations of
the summed child collections (HTTPDSrefs, HttpPolicyRefs, EvhNodes,
CACertRefs, SSLKeyCertRefs, VSVIPRefs) and under permutations of the listener
list when its port names are pairwise distinct; the stored order of
`HttpPolicySetRefs` and `VsDatascriptRefs`, by contrast, enters the checksum
(the source keeps their order), and listener lists with duplicate names are
only canonicalized up to the name sort. -/
theorem C2_checksum_perm (d1 d2 : EvhData AviEvhVsNode)
    (hAppProf : d1.ApplicationProfile = d2.ApplicationProfile)
    (hNet : d1.NetworkProfile = d2.NetworkProfile)
    (hSeg : d1.ServiceEngineGroup = d2.ServiceEngineGroup)
    (hWaf : d1.WafPolicyRef = d2.WafPolicyRef)
    (hApp : d1.AppProfileRef = d2.AppProfileRef)
    (hPol : d1.HttpPolicySetRefs = d2.HttpPolicySetRefs)
    (hAna : d1.AnalyticsProfileRef = d2.AnalyticsProfileRef)
    (hErr : d1.ErrorPageProfileRef = d2.ErrorPageProfileRef)
    (hSslP : d1.SSLProfileRef = d2.SSLProfileRef)
    (hDs : d1.VsDatascriptRefs = d2.VsDatascriptRefs)
    (hHost : d1.EvhHostName = d2.EvhHostName)
    (hEn : d1.Enabled = d2.Enabled)
    (hRhi : d1.EnableRhi = d2.EnableRhi)
    (hds : d1.HTTPDSrefs.Perm d2.HTTPDSrefs)
    (hhp : d1.HttpPolicyRefs.Perm d2.HttpPolicyRefs)
    (hev : d1.EvhNodes.Perm d2.EvhNodes)
    (hca : d1.CACertRefs.Perm d2.CACertRefs)
    (hssl : d1.SSLKeyCertRefs.Perm d2.SSLKeyCertRefs)
    (hvip : d1.VSVIPRefs.Perm d2.VSVIPRefs)
    (hpp : d1.PortProto.Perm d2.PortProto)
    (hnames : (d1.PortProto.map (fun p => p.Name)).Nodup) :
    (AviEvhVsNode.mk d1).GetCheckSum = (AviEvhVsNode.mk d2).GetCheckSum := by
  have hsort : sortPortProto d1.PortProto = sortPortProto d2.PortProto :=
    sortPortProto_perm_eq d1.PortProto d2.PortProto hpp hnames
  have h1 : cksHTTPDSList d1.HTTPDSrefs = cksHTTPDSList d2.HTTPDSrefs :=
    (hds.map AviHTTPDataScriptNode.GetCheckSum).sum_eq
  have h2 : cksHttpPolList d1.HttpPolicyRefs = cksHttpPolList d2.HttpPolicyRefs :=
    (hhp.map AviHttpPolicySetNode.GetCheckSum).sum_eq
  have h3 : cksEvhList d1.EvhNodes = cksEvhList d2.EvhNodes := by
    rw [cksEvhList_eq_sum, cksEvhList_eq_sum]
    exact (hev.map AviEvhVsNode.GetCheckSum).sum_eq
  have h4 : cksTLSList d1.CACertRefs = cksTLSList d2.CACertRefs :=
    (hca.map AviTLSKeyCertNode.GetCheckSum).sum_eq
  have h5 : cksTLSList d1.SSLKeyCertRefs = cksTLSList d2.SSLKeyCertRefs :=
    (hssl.map AviTLSKeyCertNode.GetCheckSum).sum_eq
  have h6 : cksVSVIPList d1.VSVIPRefs = cksVSVIPList d2.VSVIPRefs :=
    (hvip.map AviVSVIPNode.GetCheckSum).sum_eq
  show AviEvhVsNode.GetCheckSum (AviEvhVsNode.mk d1) =
    AviEvhVsNode.GetCheckSum (AviEvhVsNode.mk d2)
  rw [AviEvhVsNode.GetCheckSum, AviEvhVsNode.GetCheckSum]
  simp only [hAppProf, hNet, hSeg, hWaf, hApp, hPol, hAna, hErr, hSslP, hDs, hHost, hEn,
    hRhi, hsort, h1, h2, h3, h4, h5, h6]

/-- Claim C2, witness: a concrete node and its listener-swapped counterpart
(with distinct port names) have equal checksums. -/
theorem C2_checksum_perm_witness :
    (AviEvhVsNode.mk { emptyEvhData with
        PortProto := [{ Name := "http", Port := 80, Protocol := "HTTP", EnableSSL := false },
          { Name := "https", Port := 443, Protocol := "HTTP", EnableSSL := true }] }).GetCheckSum =
      (AviEvhVsNode.mk { emptyEvhData with
        PortProto := [{ Name := "https", Port := 443, Protocol := "HTTP", EnableSSL := true },
          { Name := "http", Port := 80, Protocol := "HTTP", EnableSSL := false }] }).GetCheckSum :=
  C2_checksum_perm _ _ rfl rfl rfl rfl rfl rfl rfl rfl rfl rfl rfl rfl rfl
    (List.Perm.refl _) (List.Perm.refl _) (List.Perm.refl _) (List.Perm.refl _)
    (List.Perm.refl _) (List.Perm.refl _)
    (List.Perm.swap _ _ _) (by decide)


set_option maxRecDepth 40000 in
/-- Claim C2, counterexample: permuting `HttpPolicySetRefs` changes the
checksum (the source hashes its stored order), and so does permuting two
listeners whose `Name` fields coincide (the sort by name cannot tell them
apart) — so a node's checksum is not invariant under permutation of all its
unordered collections. -/
theorem C2_counterexample :
    (["/api/httppolicyset?name=a", "/api/httppolicyset?name=b"] : List String).Perm
      ["/api/httppolicyset?name=b", "/api/httppolicyset?name=a"] ∧
    (AviEvhVsNode.mk { emptyEvhData with
        HttpPolicySetRefs :=
          ["/api/httppolicyset?name=a", "/api/httppolicyset?name=b"] }).GetCheckSum ≠
      (AviEvhVsNode.mk { emptyEvhData with
        HttpPolicySetRefs :=
          ["/api/httppolicyset?name=b", "/api/httppolicyset?name=a"] }).GetCheckSum ∧
    ([{ Name := "", Port := 80, Protocol := "HTTP", EnableSSL := false },
      { Name := "", Port := 443, Protocol := "HTTP", EnableSSL := true }] :
        List AviPortHostProtocol).Perm
      [{ Name := "", Port := 443, Protocol := "HTTP", EnableSSL := true },
       { Name := "", Port := 80, Protocol := "HTTP", EnableSSL := false }] ∧
    (AviEvhVsNode.mk { emptyEvhData with
        PortProto := [{ Name := "", Port := 80, Protocol := "HTTP", EnableSSL := false },
          { Name := "", Port := 443, Protocol := "HTTP", EnableSSL := true }] }).GetCheckSum ≠
      (AviEvhVsNode.mk { emptyEvhData with
        PortProto := [{ Name := "", Port := 443, Protocol := "HTTP", EnableSSL := true },
          { Name := "", Port := 80, Protocol := "HTTP", EnableSSL := false }] }).GetCheckSum := by
  refine ⟨List.Perm.swap _ _ _, by decide, List.Perm.swap _ _ _, ?_⟩
  have h1 : sortPortProto
      [{ Name := "", Port := 80, Protocol := "HTTP", EnableSSL := false },
       { Name := "", Port := 443, Protocol := "HTTP", EnableSSL := true }] =
      [{ Name := "", Port := 80, Protocol := "HTTP", EnableSSL := false },
       { Name := "", Port := 443, Protocol := "HTTP", EnableSSL := true }] := by
    simp [sortPortProto, List.insertionSort, List.orderedInsert]
  have h2 : sortPortProto
      [{ Name := "", Port := 443, Protocol := "HTTP", EnableSSL := true },
       { Name := "", Port := 80, Protocol := "HTTP", EnableSSL := false }] =
      [{ Name := "", Port := 443, Protocol := "HTTP", EnableSSL := true },
       { Name := "", Port := 80, Protocol := "HTTP", EnableSSL := false }] := by
    simp [sortPortProto, List.insertionSort, List.orderedInsert]
  rw [AviEvhVsNode.GetCheckSum, AviEvhVsNode.GetCheckSum]
  simp only [h1, h2]
  decide


/-- Replacing the first child of a given name by a node bearing that same name
leaves the list of child names unchanged. -/
theorem setFirstEvhChildList_names (nm : String) (c : AviEvhVsNode) (hc : c.data.Name = nm) :
    ∀ l : List AviEvhVsNode,
      (setFirstEvhChildList l nm c).map (fun e => e.data.Name) =
        l.map (fun e => e.data.Name)
  | [] => rfl
  | e :: rest => by
    by_cases he : (e.data.Name == nm) = true
    · simp only [setFirstEvhChildList, he, if_true, List.map_cons]
      have hen : e.data.Name = nm := by simpa using he
      have hce : c.data.Name = e.data.Name := hc.trans hen.symm
      rw [hce]
    · simp only [Bool.not_eq_true] at he
      simp only [setFirstEvhChildList, he, Bool.false_eq_true, if_false, List.map_cons,
        setFirstEvhChildList_names nm c hc rest]

/-- After removing the (unique) child of a given name, no child bears it. -/
theorem removeEvhList_no_name (nm : String) :
    ∀ l : List AviEvhVsNode, (l.map (fun e => e.data.Name)).Nodup →
      ∀ e ∈ removeEvhList l nm, ¬ e.data.Name = nm
  | [], _, e, he => by cases he
  | m :: rest, hnd, e, he => by
    have hparts : (∀ x ∈ rest, ¬ x.data.Name = m.data.Name) ∧
        ((rest.map fun e => e.data.Name)).Nodup := by
      simpa using hnd
    by_cases hm : (m.data.Name == nm) = true
    · have hmn : m.data.Name = nm := by simpa using hm
      simp only [removeEvhList, hm, if_true] at he
      intro hcontra
      exact hparts.1 e he (hcontra.trans hmn.symm)
    · simp only [Bool.not_eq_true] at hm
      simp only [removeEvhList, hm, Bool.false_eq_true, if_false, List.mem_cons] at he
      rcases he with rfl | he
      · simpa using hm
      · exact removeEvhList_no_name nm rest hparts.2 e he

/-- After deleting the (unique) SSL/CA ref of a given name, none bears it. -/
theorem deleteTLSList_no_name (nm : String) :
    ∀ l : List AviTLSKeyCertNode, (l.map (fun s => s.Name)).Nodup →
      ∀ s ∈ deleteTLSList l nm, ¬ s.Name = nm
  | [], _, s, hs => by cases hs
  | m :: rest, hnd, s, hs => by
    have hparts : (∀ x ∈ rest, ¬ x.Name = m.Name) ∧
        ((rest.map fun s => s.Name)).Nodup := by
      simpa using hnd
    by_cases hm : (m.Name == nm) = true
    · have hmn : m.Name = nm := by simpa using hm
      simp only [deleteTLSList, hm, if_true] at hs
      intro hcontra
      exact hparts.1 s hs (hcontra.trans hmn.symm)
    · simp only [Bool.not_eq_true] at hm
      simp only [deleteTLSList, hm, Bool.false_eq_true, if_false, List.mem_cons] at hs
      rcases hs with rfl | hs
      · simpa using hm
      · exact deleteTLSList_no_name nm rest hparts.2 s hs

/-- After the redirect-removal loop, no surviving policy bearing the redirect
name still lists the host (given duplicate-free hosts arrays). -/
theorem removeRedirectList_host_gone (pn h : String) :
    ∀ refs : List AviHttpPolicySetNode, (∀ p ∈ refs, (policyRedirectHosts p).Nodup) →
      ∀ q ∈ removeRedirectList pn h refs, q.Name = pn → h ∉ policyRedirectHosts q
  | [], _, q, hq => by cases hq
  | p :: rest, hnd, q, hq => by
    have hndrest : ∀ x ∈ rest, (policyRedirectHosts x).Nodup :=
      fun x hx => hnd x (List.mem_cons_of_mem p hx)
    by_cases hname : (p.Name == pn) = true
    · by_cases hemp : ((RemoveElem (policyRedirectHosts p) h).isEmpty) = true
      · simp only [removeRedirectList, hname, if_true, hemp] at hq
        exact removeRedirectList_host_gone pn h rest hndrest q hq
      · simp only [Bool.not_eq_true] at hemp
        simp only [removeRedirectList, hname, if_true, hemp, Bool.false_eq_true, if_false,
          List.mem_cons] at hq
        rcases hq with rfl | hq
        · intro _ hmem
          cases hrp : p.RedirectPorts with
          | nil =>
            have : ((RemoveElem (policyRedirectHosts p) h).isEmpty) = true := by
              simp [policyRedirectHosts, RemoveElem, hrp]
            exact absurd this (by simp [hemp])
          | cons r rs =>
            have hq' : policyRedirectHosts
                (policyWithRedirectHosts p (RemoveElem (policyRedirectHosts p) h)) =
                  (policyRedirectHosts p).erase h := by
              simp [policyWithRedirectHosts, policyRedirectHosts, RemoveElem, hrp]
            rw [hq'] at hmem
            have hpn : (policyRedirectHosts p).Nodup := hnd p (List.mem_cons_self p rest)
            exact absurd ((hpn.mem_erase_iff.mp hmem).1) (by simp)
        · exact removeRedirectList_host_gone pn h rest hndrest q hq
    · simp only [Bool.not_eq_true] at hname
      simp only [removeRedirectList, hname, Bool.false_eq_true, if_false,
        List.mem_cons] at hq
      rcases hq with rfl | hq
      · intro hqn
        exact absurd hqn (by simpa using hname)
      · exact removeRedirectList_host_gone pn h rest hndrest q hq

/-- `BuildTlsCertNodeForEvh` on a non-Route secret that is absent or lacks the
cert or key entry reports failure and returns the node untouched. -/
theorem buildTlsCert_fail (secrets : String → String → Option SecretData)
    (st : List (String × List String)) (node : AviEvhVsNode) (ns : String)
    (tls : TlsSettings) (host : String)
    (hroute : strHasPre RouteSecretsPrefix tls.SecretName = false)
    (hsec : ∀ s, secrets (if tls.SecretNS == "" then ns else tls.SecretNS) tls.SecretName
      = some s → s.cert = none ∨ s.key = none) :
    (BuildTlsCertNodeForEvh secrets st node ns tls host).1 = false ∧
    (BuildTlsCertNodeForEvh secrets st node ns tls host).2.1 = node := by
  unfold BuildTlsCertNodeForEvh
  simp only [hroute, Bool.false_eq_true, if_false]
  cases hs : secrets (if tls.SecretNS == "" then ns else tls.SecretNS) tls.SecretName with
  | none => simp
  | some s =>
    rcases hsec s hs with hc | hk
    · simp [hc]
    · cases hcert : s.cert with
      | none => simp [hcert]
      | some c => simp [hcert, hk]

/-- With duplicate-free child names, removing the name leaves it unfindable. -/
theorem removeEvh_find_none (nm : String) (l : List AviEvhVsNode)
    (hnd : (l.map (fun e => e.data.Name)).Nodup) :
    (removeEvhList l nm).find? (fun c => c.data.Name == nm) = none := by
  rw [List.find?_eq_none]
  intro x hx
  simpa using removeEvhList_no_name nm l hnd x hx

/-- Name-nodup is preserved by replacing the first child of a name with a node
of that same name. -/
theorem setFirstEvhChildList_nodup (nm : String) (c : AviEvhVsNode)
    (hc : c.data.Name = nm) (l : List AviEvhVsNode)
    (hnd : (l.map (fun e => e.data.Name)).Nodup) :
    ((setFirstEvhChildList l nm c).map (fun e => e.data.Name)).Nodup := by
  rw [setFirstEvhChildList_names nm c hc l]
  exact hnd

/-- Claim C4 (amended): for a non-dummy, non-Route TLS setting whose secret is
missing or lacks the cert or the key entry, when no pre-existing child carries
a host-rule certificate and no other ingress claims the host, the per-host
builder reports failure, empties the host's ingress map, removes the child VS
from the parent, deletes its SSL key/cert reference and clears the host from
the parent's redirect policy. -/
theorem C4_secret_missing_cleanup (env : BuildEnv) (ingName ns host : String)
    (paths : List IngressHostPathSvc) (tls : TlsSettings) (parent : AviEvhVsNode)
    (hostMap0 : Option (List String)) (secretToIng : List (String × List String))
    (hdummy : strHasPre DummySecret tls.SecretName = false)
    (hroute : strHasPre RouteSecretsPrefix tls.SecretName = false)
    (hexist : ∀ ev, GetEvhNodeForName parent (GetEvhNodeName ingName ns host) = some ev →
      ev.data.SSLKeyCertAviRef = "")
    (hsec : ∀ s, env.secrets (if tls.SecretNS == "" then ns else tls.SecretNS) tls.SecretName
      = some s → s.cert = none ∨ s.key = none)
    (hmap : ∀ m, hostMap0 = some m → ∀ k ∈ m, k = ns ++ "/" ++ ingName)
    (hndEvh : (parent.data.EvhNodes.map (fun e => e.data.Name)).Nodup)
    (hndSSL : (parent.data.SSLKeyCertRefs.map (fun s => s.Name)).Nodup)
    (hndHosts : ∀ p ∈ parent.data.HttpPolicyRefs, (policyRedirectHosts p).Nodup) :
    (evhNodeHostNameStep env ingName ns host paths tls parent hostMap0 secretToIng).certsBuilt
      = false ∧
    (evhNodeHostNameStep env ingName ns host paths tls parent hostMap0 secretToIng).hostMap
      = [] ∧
    GetEvhNodeForName
      (evhNodeHostNameStep env ingName ns host paths tls parent hostMap0 secretToIng).parent
      (GetEvhNodeName ingName ns host) = none ∧
    (∀ s ∈ (evhNodeHostNameStep env ingName ns host paths tls parent hostMap0
        secretToIng).parent.data.SSLKeyCertRefs,
      ¬ s.Name = GetTLSKeyCertNodeName ns tls.SecretName host) ∧
    (∀ p ∈ (evhNodeHostNameStep env ingName ns host paths tls parent hostMap0
        secretToIng).parent.data.HttpPolicyRefs,
      p.Name = GetL7HttpRedirPolicy parent.data.Name → host ∉ policyRedirectHosts p) := by
  have hseg : (GetSEGName != DEFAULT_SE_GROUP) = false := by decide
  have hfail1 : ∀ (node : AviEvhVsNode) (st2 : List (String × List String)),
      (BuildTlsCertNodeForEvh env.secrets st2 node ns tls host).1 = false :=
    fun node st2 => (buildTlsCert_fail env.secrets st2 node ns tls host hroute hsec).1
  have hfail2 : ∀ (node : AviEvhVsNode) (st2 : List (String × List String)),
      (BuildTlsCertNodeForEvh env.secrets st2 node ns tls host).2.1 = node :=
    fun node st2 => (buildTlsCert_fail env.secrets st2 node ns tls host hroute hsec).2
  cases hex : GetEvhNodeForName parent (GetEvhNodeName ingName ns host) with
  | none =>
    have hexF : parent.data.EvhNodes.find?
        (fun c => c.data.Name == GetEvhNodeName ingName ns host) = none := by
      rw [GetEvhNodeForName] at hex; exact hex
    rcases hostMap0 with _ | m
    · have hfilter : List.filter (fun k => !(k == ns ++ "/" ++ ingName))
          [ns ++ "/" ++ ingName] = [] := by simp
      simp only [evhNodeHostNameStep, hex, hexF, hdummy, hseg, hfail1, hfail2, hfilter,
        GetEvhNodeForName, RemoveRedirectHTTPPolicyInModelForEvh, RemoveEvhInModel,
        DeleteSSLRefInEVHNode, setFirstEvhChild, AviEvhVsNode.upd_data, AviEvhVsNode.data_mk,
        Bool.false_eq_true, if_false, if_true, Bool.not_false, Bool.or_false, Bool.false_or,
        Bool.or_self, List.isEmpty_nil, and_true, true_and]
      refine ⟨?_, ?_, ?_⟩
      · exact removeEvh_find_none _ _ hndEvh
      · exact deleteTLSList_no_name _ _ hndSSL
      · exact removeRedirectList_host_gone _ _ _ hndHosts
    · have hall : ∀ k ∈ m, k = ns ++ "/" ++ ingName := hmap m rfl
      have hfilter : List.filter (fun k => !(k == ns ++ "/" ++ ingName))
          (if m.contains (ns ++ "/" ++ ingName) then m else m ++ [ns ++ "/" ++ ingName])
          = [] := by
        rw [List.filter_eq_nil_iff]
        intro k hk
        have hkm : k = ns ++ "/" ++ ingName := by
          by_cases hc : m.contains (ns ++ "/" ++ ingName) = true
          · rw [if_pos hc] at hk; exact hall k hk
          · rw [if_neg (by simpa using hc)] at hk
            rcases List.mem_append.mp hk with h1 | h1
            · exact hall k h1
            · simpa using h1
        simp [hkm]
      simp only [evhNodeHostNameStep, hex, hexF, hdummy, hseg, hfail1, hfail2, hfilter,
        GetEvhNodeForName, RemoveRedirectHTTPPolicyInModelForEvh, RemoveEvhInModel,
        DeleteSSLRefInEVHNode, setFirstEvhChild, AviEvhVsNode.upd_data, AviEvhVsNode.data_mk,
        Bool.false_eq_true, if_false, if_true, Bool.not_false, Bool.or_false, Bool.false_or,
        Bool.or_self, List.isEmpty_nil, and_true, true_and]
      refine ⟨?_, ?_, ?_⟩
      · exact removeEvh_find_none _ _ hndEvh
      · exact deleteTLSList_no_name _ _ hndSSL
      · exact removeRedirectList_host_gone _ _ _ hndHosts
  | some ev =>
    have hexF : parent.data.EvhNodes.find?
        (fun c => c.data.Name == GetEvhNodeName ingName ns host) = some ev := by
      rw [GetEvhNodeForName] at hex; exact hex
    have hevname : ev.data.Name = GetEvhNodeName ingName ns host := by
      simpa using List.find?_some hexF
    have hsslref : ev.data.SSLKeyCertAviRef = "" := hexist ev hex
    rcases hostMap0 with _ | m
    · have hfilter : List.filter (fun k => !(k == ns ++ "/" ++ ingName))
          [ns ++ "/" ++ ingName] = [] := by simp
      simp only [evhNodeHostNameStep, hex, hexF, hdummy, hseg, hsslref, hfail1, hfail2,
        hfilter, GetEvhNodeForName, RemoveRedirectHTTPPolicyInModelForEvh, RemoveEvhInModel,
        DeleteSSLRefInEVHNode, setFirstEvhChild, AviEvhVsNode.upd_data, AviEvhVsNode.data_mk,
        bne_self_eq_false, Bool.false_eq_true, if_false, if_true, Bool.not_false,
        Bool.or_false, Bool.false_or, Bool.or_self, List.isEmpty_nil, and_true, true_and]
      refine ⟨?_, ?_, ?_⟩
      · apply removeEvh_find_none
        apply setFirstEvhChildList_nodup
        · simp [hevname]
        · exact hndEvh
      · exact deleteTLSList_no_name _ _ hndSSL
      · exact removeRedirectList_host_gone _ _ _ hndHosts
    · have hall : ∀ k ∈ m, k = ns ++ "/" ++ ingName := hmap m rfl
      have hfilter : List.filter (fun k => !(k == ns ++ "/" ++ ingName))
          (if m.contains (ns ++ "/" ++ ingName) then m else m ++ [ns ++ "/" ++ ingName])
          = [] := by
        rw [List.filter_eq_nil_iff]
        intro k hk
        have hkm : k = ns ++ "/" ++ ingName := by
          by_cases hc : m.contains (ns ++ "/" ++ ingName) = true
          · rw [if_pos hc] at hk; exact hall k hk
          · rw [if_neg (by simpa using hc)] at hk
            rcases List.mem_append.mp hk with h1 | h1
            · exact hall k h1
            · simpa using h1
        simp [hkm]
      simp only [evhNodeHostNameStep, hex, hexF, hdummy, hseg, hsslref, hfail1, hfail2,
        hfilter, GetEvhNodeForName, RemoveRedirectHTTPPolicyInModelForEvh, RemoveEvhInModel,
        DeleteSSLRefInEVHNode, setFirstEvhChild, AviEvhVsNode.upd_data, AviEvhVsNode.data_mk,
        bne_self_eq_false, Bool.false_eq_true, if_false, if_true, Bool.not_false,
        Bool.or_false, Bool.false_or, Bool.or_self, List.isEmpty_nil, and_true, true_and]
      refine ⟨?_, ?_, ?_⟩
      · apply removeEvh_find_none
        apply setFirstEvhChildList_nodup
        · simp [hevname]
        · exact hndEvh
      · exact deleteTLSList_no_name _ _ hndSSL
      · exact removeRedirectList_host_gone _ _ _ hndHosts

/-- Witness for claim C4: a missing secret on an empty shard parent. -/
theorem C4_secret_missing_cleanup_witness :
    (evhNodeHostNameStep
      { populateServers := fun _ _ => none, hostRule := fun _ => HostRuleLookup.noMapping,
        fqdnHTTPRules := fun _ => none, httpRuleGet := fun _ => none,
        secrets := fun _ _ => none }
      "ing1" "default" "secure.com" []
      { SecretName := "mysecret", SecretNS := "", cert := "", key := "", cacert := "",
        redirect := false }
      (AviEvhVsNode.mk emptyEvhData) none []).certsBuilt = false ∧
    (evhNodeHostNameStep
      { populateServers := fun _ _ => none, hostRule := fun _ => HostRuleLookup.noMapping,
        fqdnHTTPRules := fun _ => none, httpRuleGet := fun _ => none,
        secrets := fun _ _ => none }
      "ing1" "default" "secure.com" []
      { SecretName := "mysecret", SecretNS := "", cert := "", key := "", cacert := "",
        redirect := false }
      (AviEvhVsNode.mk emptyEvhData) none []).hostMap = [] ∧
    GetEvhNodeForName
      (evhNodeHostNameStep
        { populateServers := fun _ _ => none, hostRule := fun _ => HostRuleLookup.noMapping,
          fqdnHTTPRules := fun _ => none, httpRuleGet := fun _ => none,
          secrets := fun _ _ => none }
        "ing1" "default" "secure.com" []
        { SecretName := "mysecret", SecretNS := "", cert := "", key := "", cacert := "",
          redirect := false }
        (AviEvhVsNode.mk emptyEvhData) none []).parent
      (GetEvhNodeName "ing1" "default" "secure.com") = none ∧
    (∀ s ∈ (evhNodeHostNameStep
        { populateServers := fun _ _ => none, hostRule := fun _ => HostRuleLookup.noMapping,
          fqdnHTTPRules := fun _ => none, httpRuleGet := fun _ => none,
          secrets := fun _ _ => none }
        "ing1" "default" "secure.com" []
        { SecretName := "mysecret", SecretNS := "", cert := "", key := "", cacert := "",
          redirect := false }
        (AviEvhVsNode.mk emptyEvhData) none []).parent.data.SSLKeyCertRefs,
      ¬ s.Name = GetTLSKeyCertNodeName "default" "mysecret" "secure.com") ∧
    (∀ p ∈ (evhNodeHostNameStep
        { populateServers := fun _ _ => none, hostRule := fun _ => HostRuleLookup.noMapping,
          fqdnHTTPRules := fun _ => none, httpRuleGet := fun _ => none,
          secrets := fun _ _ => none }
        "ing1" "default" "secure.com" []
        { SecretName := "mysecret", SecretNS := "", cert := "", key := "", cacert := "",
          redirect := false }
        (AviEvhVsNode.mk emptyEvhData) none []).parent.data.HttpPolicyRefs,
      p.Name = GetL7HttpRedirPolicy (AviEvhVsNode.mk emptyEvhData).data.Name →
        "secure.com" ∉ policyRedirectHosts p) :=
  C4_secret_missing_cleanup
    { populateServers := fun _ _ => none, hostRule := fun _ => HostRuleLookup.noMapping,
      fqdnHTTPRules := fun _ => none, httpRuleGet := fun _ => none,
      secrets := fun _ _ => none }
    "ing1" "default" "secure.com" []
    { SecretName := "mysecret", SecretNS := "", cert := "", key := "", cacert := "",
      redirect := false }
    (AviEvhVsNode.mk emptyEvhData) none []
    (by decide) (by decide)
    (fun ev h => by simp [GetEvhNodeForName, emptyEvhData] at h)
    (fun s h => by cases h)
    (fun m h => by cases h)
    (by simp [emptyEvhData])
    (by simp [emptyEvhData])
    (fun p hp => by simp [emptyEvhData] at hp)

/-- Claim C4, counterexample: with the same missing secret but a second
ingress still claiming the host, the builder reports failure yet leaves the
pre-existing child VS in the parent — the claimed unconditional removal does
not happen. -/
theorem C4_counterexample :
    (evhNodeHostNameStep
      { populateServers := fun _ _ => none, hostRule := fun _ => HostRuleLookup.noMapping,
        fqdnHTTPRules := fun _ => none, httpRuleGet := fun _ => none,
        secrets := fun _ _ => none }
      "ing1" "default" "secure.com" []
      { SecretName := "mysecret", SecretNS := "", cert := "", key := "", cacert := "",
        redirect := false }
      (AviEvhVsNode.mk { emptyEvhData with
        Name := "cluster--Shared-L7-EVH-0",
        EvhNodes := [AviEvhVsNode.mk { emptyEvhData with
          Name := GetEvhNodeName "ing1" "default" "secure.com" }] })
      (some ["other/ing2"]) []).certsBuilt = false ∧
    (GetEvhNodeForName
      (evhNodeHostNameStep
        { populateServers := fun _ _ => none, hostRule := fun _ => HostRuleLookup.noMapping,
          fqdnHTTPRules := fun _ => none, httpRuleGet := fun _ => none,
          secrets := fun _ _ => none }
        "ing1" "default" "secure.com" []
        { SecretName := "mysecret", SecretNS := "", cert := "", key := "", cacert := "",
          redirect := false }
        (AviEvhVsNode.mk { emptyEvhData with
          Name := "cluster--Shared-L7-EVH-0",
          EvhNodes := [AviEvhVsNode.mk { emptyEvhData with
            Name := GetEvhNodeName "ing1" "default" "secure.com" }] })
        (some ["other/ing2"]) []).parent
      (GetEvhNodeName "ing1" "default" "secure.com")).isSome = true := by
  decide

/-- A fold whose body never touches the pool-group refs preserves them. -/
theorem foldl_preserves_pg {α : Type} (f : AviEvhVsNode → α → AviEvhVsNode)
    (hf : ∀ n a, (f n a).data.PoolGroupRefs = n.data.PoolGroupRefs) :
    ∀ (l : List α) (n : AviEvhVsNode),
      (l.foldl f n).data.PoolGroupRefs = n.data.PoolGroupRefs
  | [], _ => rfl
  | a :: l, n => by
    rw [List.foldl_cons, foldl_preserves_pg f hf l (f n a), hf]

/-- `BuildPoolHTTPRule` only rewrites pools: the pool-group refs survive. -/
theorem BuildPoolHTTPRule_pg (pathRulesOpt : Option (List (String × String)))
    (ruleGet : String → Option HTTPRuleCRD) (host ingName ns : String)
    (vsNode : AviEvhVsNode) (isSNI : Bool) :
    (BuildPoolHTTPRule pathRulesOpt ruleGet host ingName ns vsNode isSNI).data.PoolGroupRefs
      = vsNode.data.PoolGroupRefs := by
  unfold BuildPoolHTTPRule
  cases pathRulesOpt with
  | none => rfl
  | some pathRules =>
    apply foldl_preserves_pg
    intro n pr
    dsimp only
    split
    · rfl
    · split
      · rfl
      · simp

/-- The replace loop on a pool-group list with no matching name appends the
fresh alias. -/
theorem replacePGEntries_no_match (nm : String) :
    ∀ l : List PGEntry, (∀ e ∈ l, ¬ e.name = nm) → replacePGEntries l nm = l ++ [.fresh nm]
  | [], _ => rfl
  | e :: rest, h => by
    have he : (e.name == nm) = false := by
      simpa using h e (List.mem_cons_self e rest)
    simp only [replacePGEntries, he, Bool.false_eq_true, if_false, List.cons_append,
      replacePGEntries_no_match nm rest (fun x hx => h x (List.mem_cons_of_mem e hx))]

/-- Finding the fresh alias behind non-matching pre-existing entries. -/
theorem findPGEntry_append_fresh (nm : String) :
    ∀ orig : List PGEntry, (∀ e ∈ orig, ¬ e.name = nm) →
      (orig ++ [PGEntry.fresh nm]).find? (fun e => e.name == nm) = some (PGEntry.fresh nm)
  | [], _ => by simp [List.find?, PGEntry.name]
  | e :: rest, h => by
    have he : (e.name == nm) = false := by
      simpa using h e (List.mem_cons_self e rest)
    simp only [List.cons_append, List.find?, he]
    exact findPGEntry_append_fresh nm rest (fun x hx => h x (List.mem_cons_of_mem e hx))

/-- No pre-existing entry name matches, so the first lookup misses. -/
theorem findPGEntry_none (nm : String) (orig : List PGEntry)
    (h : ∀ e ∈ orig, ¬ e.name = nm) :
    orig.find? (fun e => e.name == nm) = none := by
  rw [List.find?_eq_none]
  intro x hx
  simpa using h x hx

/-- First path entry of a pool-group name: the local pool group is created
with the single member and the fresh alias is appended to the entries. -/
theorem buildPGPoolPathEntry_first (populateServers : String → String → Option (List String))
    (ns ingName host p : String) (orig : List PGEntry)
    (horig : ∀ e ∈ orig, ¬ e.name = GetEvhVsPoolNPgName ingName ns host p)
    (q : IngressHostPathSvc) (hq : q.Path = p)
    (pools : List AviPoolNode) (https : List AviHttpPolicySetNode) :
    (buildPGPoolPathEntry populateServers ns ingName host
      { localPG := [], entries := orig, pools := pools, https := https } q).localPG =
      [(GetEvhVsPoolNPgName ingName ns host p,
        [{ PoolRef := "/api/pool?name=" ++ GetEvhVsPoolNPgName ingName ns host p,
           Ratio := q.weight }])] ∧
    (buildPGPoolPathEntry populateServers ns ingName host
      { localPG := [], entries := orig, pools := pools, https := https } q).entries =
      orig ++ [PGEntry.fresh (GetEvhVsPoolNPgName ingName ns host p)] := by
  have hnone := findPGEntry_none (GetEvhVsPoolNPgName ingName ns host p) orig horig
  have hrep := replacePGEntries_no_match (GetEvhVsPoolNPgName ingName ns host p) orig horig
  unfold buildPGPoolPathEntry checkPGEntries
  dsimp only
  rw [hq]
  simp only [List.find?_nil, Option.isSome_none, Bool.false_eq_true, if_false,
    List.nil_append, List.map_cons, List.map_nil, beq_self_eq_true, if_true,
    hnone, hrep]
  exact ⟨trivial, trivial⟩

/-- Later path entries of an already-created pool-group name: the member is
appended to the local pool group and the entries are untouched (the alias
already matches the recomputed checksum). -/
theorem buildPGPoolPathEntry_found (populateServers : String → String → Option (List String))
    (ns ingName host p : String) (orig : List PGEntry)
    (horig : ∀ e ∈ orig, ¬ e.name = GetEvhVsPoolNPgName ingName ns host p)
    (q : IngressHostPathSvc) (hq : q.Path = p) (ms : List PoolGroupMember)
    (pools : List AviPoolNode) (https : List AviHttpPolicySetNode) :
    (buildPGPoolPathEntry populateServers ns ingName host
      { localPG := [(GetEvhVsPoolNPgName ingName ns host p, ms)],
        entries := orig ++ [PGEntry.fresh (GetEvhVsPoolNPgName ingName ns host p)],
        pools := pools, https := https } q).localPG =
      [(GetEvhVsPoolNPgName ingName ns host p,
        ms ++ [{ PoolRef := "/api/pool?name=" ++ GetEvhVsPoolNPgName ingName ns host p,
                 Ratio := q.weight }])] ∧
    (buildPGPoolPathEntry populateServers ns ingName host
      { localPG := [(GetEvhVsPoolNPgName ingName ns host p, ms)],
        entries := orig ++ [PGEntry.fresh (GetEvhVsPoolNPgName ingName ns host p)],
        pools := pools, https := https } q).entries =
      orig ++ [PGEntry.fresh (GetEvhVsPoolNPgName ingName ns host p)] := by
  have hfind := findPGEntry_append_fresh (GetEvhVsPoolNPgName ingName ns host p) orig horig
  unfold buildPGPoolPathEntry checkPGEntries
  dsimp only
  rw [hq]
  simp only [List.find?_cons, beq_self_eq_true, cond_true, Option.isSome_some, if_true,
    List.map_cons, List.map_nil, hfind, PGEntry.content, Bool.not_true,
    Bool.false_eq_true, if_false]
  exact ⟨trivial, trivial⟩

/-- Steady state of the per-path loop: once the local pool group and its fresh
alias exist, every further entry of the same path name only appends its member
to the local pool group. -/
theorem pgFold_steady (populateServers : String → String → Option (List String))
    (ns ingName host p : String) (orig : List PGEntry)
    (horig : ∀ e ∈ orig, ¬ e.name = GetEvhVsPoolNPgName ingName ns host p) :
    ∀ (ps : List IngressHostPathSvc), (∀ q ∈ ps, q.Path = p) →
      ∀ (ms : List PoolGroupMember) (pools : List AviPoolNode)
        (https : List AviHttpPolicySetNode),
      (ps.foldl (buildPGPoolPathEntry populateServers ns ingName host)
          { localPG := [(GetEvhVsPoolNPgName ingName ns host p, ms)],
            entries := orig ++ [PGEntry.fresh (GetEvhVsPoolNPgName ingName ns host p)],
            pools := pools, https := https }).localPG =
        [(GetEvhVsPoolNPgName ingName ns host p,
          ms ++ ps.map (fun q =>
            ({ PoolRef := "/api/pool?name=" ++ GetEvhVsPoolNPgName ingName ns host p,
               Ratio := q.weight } : PoolGroupMember)))] ∧
      (ps.foldl (buildPGPoolPathEntry populateServers ns ingName host)
          { localPG := [(GetEvhVsPoolNPgName ingName ns host p, ms)],
            entries := orig ++ [PGEntry.fresh (GetEvhVsPoolNPgName ingName ns host p)],
            pools := pools, https := https }).entries =
        orig ++ [PGEntry.fresh (GetEvhVsPoolNPgName ingName ns host p)] := by
  intro ps
  induction ps with
  | nil =>
    intro _ ms pools https
    exact ⟨by simp, rfl⟩
  | cons q rest ih =>
    intro hps ms pools https
    have hq : q.Path = p := hps q (List.mem_cons_self q rest)
    have hstep := buildPGPoolPathEntry_found populateServers ns ingName host p orig horig
      q hq ms pools https
    rw [List.foldl_cons]
    rcases hB : buildPGPoolPathEntry populateServers ns ingName host
        { localPG := [(GetEvhVsPoolNPgName ingName ns host p, ms)],
          entries := orig ++ [PGEntry.fresh (GetEvhVsPoolNPgName ingName ns host p)],
          pools := pools, https := https } q with ⟨L, E, P, H⟩
    simp only [hB] at hstep
    obtain ⟨hL, hE⟩ := hstep
    subst hL
    subst hE
    have hres := ih (fun x hx => hps x (List.mem_cons_of_mem q hx))
      (ms ++ [{ PoolRef := "/api/pool?name=" ++ GetEvhVsPoolNPgName ingName ns host p,
                Ratio := q.weight }]) P H
    refine ⟨?_, hres.2⟩
    rw [hres.1]
    simp [List.append_assoc]

/-- Resolving an entry through the local list preserves its name. -/
theorem PGEntry.content_name (localPG : List (String × List PoolGroupMember)) (e : PGEntry) :
    (e.content localPG).Name = e.name := by
  cases e <;> rfl

/-- Filtering the materialized pool-group list for the fresh name picks
exactly the resolved fresh alias. -/
theorem filter_map_content (localPG : List (String × List PoolGroupMember)) (nm : String) :
    ∀ orig : List PGEntry, (∀ e ∈ orig, ¬ e.name = nm) →
      ((orig ++ [PGEntry.fresh nm]).map (PGEntry.content localPG)).filter
        (fun pg => pg.Name == nm) = [PGEntry.content localPG (PGEntry.fresh nm)]
  | [], _ => by simp [PGEntry.content]
  | e :: rest, h => by
    have he : ((PGEntry.content localPG e).Name == nm) = false := by
      rw [PGEntry.content_name]
      simpa using h e (List.mem_cons_self e rest)
    simp only [List.cons_append, List.map_cons, List.filter_cons, he, Bool.false_eq_true,
      if_false]
    exact filter_map_content localPG nm rest (fun x hx => h x (List.mem_cons_of_mem e hx))

/-- Claim C6: for a host map whose entries all lie on one path, with k backing
services of weights w1..wk and no pre-existing pool group of the path's name,
`BuildPolicyPGPoolsForEVH` leaves exactly one pool group named for the
(ingress, namespace, host, path), holding exactly the k members whose ratios
are w1..wk in input order. -/
theorem C6_one_pool_group_per_path (populateServers : String → String → Option (List String))
    (pathRulesOpt : Option (List (String × String))) (ruleGet : String → Option HTTPRuleCRD)
    (parent childNode : AviEvhVsNode) (ns ingName host p : String)
    (paths : List IngressHostPathSvc)
    (hne : paths ≠ [])
    (hps : ∀ q ∈ paths, q.Path = p)
    (horig : ∀ pg ∈ childNode.data.PoolGroupRefs,
      ¬ pg.Name = GetEvhVsPoolNPgName ingName ns host p) :
    ((BuildPolicyPGPoolsForEVH populateServers pathRulesOpt ruleGet parent childNode ns
        ingName host paths).2.data.PoolGroupRefs.filter
      (fun pg => pg.Name == GetEvhVsPoolNPgName ingName ns host p)) =
    [{ Name := GetEvhVsPoolNPgName ingName ns host p, Tenant := GetTenant,
       Members := paths.map (fun q =>
         ({ PoolRef := "/api/pool?name=" ++ GetEvhVsPoolNPgName ingName ns host p,
            Ratio := q.weight } : PoolGroupMember)) }] := by
  rcases paths with _ | ⟨q, rest⟩
  · exact absurd rfl hne
  have hq : q.Path = p := hps q (List.mem_cons_self q rest)
  have horigE : ∀ e ∈ childNode.data.PoolGroupRefs.map PGEntry.old,
      ¬ e.name = GetEvhVsPoolNPgName ingName ns host p := by
    intro e he
    obtain ⟨pg, hpg, rfl⟩ := List.mem_map.mp he
    simpa [PGEntry.name] using horig pg hpg
  have hframe : ∀ (l : List IngressHostPathSvc) (c : AviEvhVsNode),
      ((l.foldl (fun c _p => BuildPoolHTTPRule pathRulesOpt ruleGet host ingName ns c true)
        c).data.PoolGroupRefs) = c.data.PoolGroupRefs :=
    fun l c => foldl_preserves_pg _
      (fun n _a => BuildPoolHTTPRule_pg pathRulesOpt ruleGet host ingName ns n true) l c
  have hfirst := buildPGPoolPathEntry_first populateServers ns ingName host p
    (childNode.data.PoolGroupRefs.map PGEntry.old) horigE q hq
    childNode.data.PoolRefs childNode.data.HttpPolicyRefs
  unfold BuildPolicyPGPoolsForEVH
  dsimp only
  simp only [hframe, AviEvhVsNode.upd_data]
  rw [List.foldl_cons]
  rcases hB : buildPGPoolPathEntry populateServers ns ingName host
      { localPG := [], entries := childNode.data.PoolGroupRefs.map PGEntry.old,
        pools := childNode.data.PoolRefs, https := childNode.data.HttpPolicyRefs } q
    with ⟨L, E, P, H⟩
  simp only [hB] at hfirst
  obtain ⟨hL, hE⟩ := hfirst
  subst hL
  subst hE
  have hres := pgFold_steady populateServers ns ingName host p
    (childNode.data.PoolGroupRefs.map PGEntry.old) horigE rest
    (fun x hx => hps x (List.mem_cons_of_mem q hx))
    [{ PoolRef := "/api/pool?name=" ++ GetEvhVsPoolNPgName ingName ns host p,
       Ratio := q.weight }]
    P H
  rw [hres.1, hres.2]
  rw [filter_map_content _ _ _ horigE]
  simp [PGEntry.content, localPGMembers, List.find?]

/-- Witness for claim C6: one path with two backing services of weights 60
and 40. -/
theorem C6_one_pool_group_per_path_witness :
    ((BuildPolicyPGPoolsForEVH (fun _ _ => none) none (fun _ => none)
        (AviEvhVsNode.mk emptyEvhData) (AviEvhVsNode.mk emptyEvhData) "default" "ing1"
        "foo.com"
        [{ Path := "/api", PathType := IngPathType.prefixType, ServiceName := "svc1",
           PortName := "", weight := 60 },
         { Path := "/api", PathType := IngPathType.prefixType, ServiceName := "svc2",
           PortName := "", weight := 40 }]).2.data.PoolGroupRefs.filter
      (fun pg => pg.Name == GetEvhVsPoolNPgName "ing1" "default" "foo.com" "/api")) =
    [{ Name := GetEvhVsPoolNPgName "ing1" "default" "foo.com" "/api", Tenant := GetTenant,
       Members :=
         ([{ Path := "/api", PathType := IngPathType.prefixType, ServiceName := "svc1",
             PortName := "", weight := 60 },
           { Path := "/api", PathType := IngPathType.prefixType, ServiceName := "svc2",
             PortName := "", weight := 40 }] : List IngressHostPathSvc).map (fun q =>
           ({ PoolRef := "/api/pool?name=" ++
                GetEvhVsPoolNPgName "ing1" "default" "foo.com" "/api",
              Ratio := q.weight } : PoolGroupMember)) }] :=
  C6_one_pool_group_per_path (fun _ _ => none) none (fun _ => none)
    (AviEvhVsNode.mk emptyEvhData) (AviEvhVsNode.mk emptyEvhData) "default" "ing1"
    "foo.com" "/api"
    [{ Path := "/api", PathType := IngPathType.prefixType, ServiceName := "svc1",
       PortName := "", weight := 60 },
     { Path := "/api", PathType := IngPathType.prefixType, ServiceName := "svc2",
       PortName := "", weight := 40 }]
    (List.cons_ne_nil _ _) (by decide) (by simp [emptyEvhData])

/-- The per-host builder coincides with the success-path replica whenever the
secret name carries the dummy marker or the pre-existing child holds a
host-rule certificate ref. -/
theorem evhStep_success (env : BuildEnv) (ingName ns host : String)
    (paths : List IngressHostPathSvc) (tls : TlsSettings) (parent : AviEvhVsNode)
    (hostMap0 : Option (List String)) (secretToIng : List (String × List String))
    (hcond : strHasPre DummySecret tls.SecretName = true ∨
      ∃ ev, GetEvhNodeForName parent (GetEvhNodeName ingName ns host) = some ev ∧
        ¬ ev.data.SSLKeyCertAviRef = "") :
    evhNodeHostNameStep env ingName ns host paths tls parent hostMap0 secretToIng =
      evhSuccessBuild env ingName ns host paths tls parent hostMap0 secretToIng := by
  rcases hcond with hdummy | ⟨ev, hex, havi⟩
  · cases hex : GetEvhNodeForName parent (GetEvhNodeName ingName ns host) with
    | none =>
      simp only [evhNodeHostNameStep, evhSuccessBuild, hex, hdummy, Bool.true_or,
        Bool.not_true, Bool.false_eq_true, if_false, if_true]
    | some ev =>
      simp only [evhNodeHostNameStep, evhSuccessBuild, hex, hdummy, Bool.true_or,
        Bool.not_true, Bool.false_eq_true, if_false, if_true]
  · have havi' : (ev.data.SSLKeyCertAviRef != "") = true := by
      simpa using havi
    simp only [evhNodeHostNameStep, evhSuccessBuild, hex, havi', Bool.or_true,
      Bool.not_true, Bool.false_eq_true, if_false, if_true]

/-- Claim C10: for a dummy-marker secret or a pre-existing child with a
host-rule certificate, TLS cert construction is skipped — the result is
exactly the success-path build, and the Kubernetes secret store is never
consulted (replacing it changes nothing). -/
theorem C10_skip_tls (env : BuildEnv) (ingName ns host : String)
    (paths : List IngressHostPathSvc) (tls : TlsSettings) (parent : AviEvhVsNode)
    (hostMap0 : Option (List String)) (secretToIng : List (String × List String))
    (hcond : strHasPre DummySecret tls.SecretName = true ∨
      ∃ ev, GetEvhNodeForName parent (GetEvhNodeName ingName ns host) = some ev ∧
        ¬ ev.data.SSLKeyCertAviRef = "") :
    evhNodeHostNameStep env ingName ns host paths tls parent hostMap0 secretToIng =
      evhSuccessBuild env ingName ns host paths tls parent hostMap0 secretToIng ∧
    ∀ secrets2 : String → String → Option SecretData,
      evhNodeHostNameStep { env with secrets := secrets2 } ingName ns host paths tls parent
        hostMap0 secretToIng =
      evhNodeHostNameStep env ingName ns host paths tls parent hostMap0 secretToIng := by
  have h1 := evhStep_success env ingName ns host paths tls parent hostMap0 secretToIng hcond
  refine ⟨h1, fun secrets2 => ?_⟩
  have h2 := evhStep_success { env with secrets := secrets2 } ingName ns host paths tls
    parent hostMap0 secretToIng hcond
  rw [h2, h1]
  rfl

/-- Witness for claim C10 at a dummy-marker secret name. -/
theorem C10_skip_tls_witness :
    (evhNodeHostNameStep
        { populateServers := fun _ _ => none, hostRule := fun _ => HostRuleLookup.noMapping,
          fqdnHTTPRules := fun _ => none, httpRuleGet := fun _ => none,
          secrets := fun _ _ => some { cert := some "c", key := some "k" } }
        "ing1" "default" "secure.com" []
        { SecretName := "@avisslkeycertref-dummysecret", SecretNS := "", cert := "",
          key := "", cacert := "", redirect := false }
        (AviEvhVsNode.mk emptyEvhData) none [] =
      evhSuccessBuild
        { populateServers := fun _ _ => none, hostRule := fun _ => HostRuleLookup.noMapping,
          fqdnHTTPRules := fun _ => none, httpRuleGet := fun _ => none,
          secrets := fun _ _ => some { cert := some "c", key := some "k" } }
        "ing1" "default" "secure.com" []
        { SecretName := "@avisslkeycertref-dummysecret", SecretNS := "", cert := "",
          key := "", cacert := "", redirect := false }
        (AviEvhVsNode.mk emptyEvhData) none []) ∧
    evhNodeHostNameStep
        { populateServers := fun _ _ => none, hostRule := fun _ => HostRuleLookup.noMapping,
          fqdnHTTPRules := fun _ => none, httpRuleGet := fun _ => none,
          secrets := fun _ _ => none }
        "ing1" "default" "secure.com" []
        { SecretName := "@avisslkeycertref-dummysecret", SecretNS := "", cert := "",
          key := "", cacert := "", redirect := false }
        (AviEvhVsNode.mk emptyEvhData) none [] =
      evhNodeHostNameStep
        { populateServers := fun _ _ => none, hostRule := fun _ => HostRuleLookup.noMapping,
          fqdnHTTPRules := fun _ => none, httpRuleGet := fun _ => none,
          secrets := fun _ _ => some { cert := some "c", key := some "k" } }
        "ing1" "default" "secure.com" []
        { SecretName := "@avisslkeycertref-dummysecret", SecretNS := "", cert := "",
          key := "", cacert := "", redirect := false }
        (AviEvhVsNode.mk emptyEvhData) none [] :=
  ⟨(C10_skip_tls
      { populateServers := fun _ _ => none, hostRule := fun _ => HostRuleLookup.noMapping,
        fqdnHTTPRules := fun _ => none, httpRuleGet := fun _ => none,
        secrets := fun _ _ => some { cert := some "c", key := some "k" } }
      "ing1" "default" "secure.com" []
      { SecretName := "@avisslkeycertref-dummysecret", SecretNS := "", cert := "",
        key := "", cacert := "", redirect := false }
      (AviEvhVsNode.mk emptyEvhData) none [] (Or.inl (by decide))).1,
   (C10_skip_tls
      { populateServers := fun _ _ => none, hostRule := fun _ => HostRuleLookup.noMapping,
        fqdnHTTPRules := fun _ => none, httpRuleGet := fun _ => none,
        secrets := fun _ _ => some { cert := some "c", key := some "k" } }
      "ing1" "default" "secure.com" []
      { SecretName := "@avisslkeycertref-dummysecret", SecretNS := "", cert := "",
        key := "", cacert := "", redirect := false }
      (AviEvhVsNode.mk emptyEvhData) none [] (Or.inl (by decide))).2 (fun _ _ => none)⟩

end AKO
